import Mathlib

/-!
The urdma ioctl dispatcher

A shallow embedding of `drivers/infiniband/core/urdma.c` together with the
declarations it uses from `include/rdma/rdma_uapi.h` and
`include/uapi/rdma/rdma_ioctl.h`.

Conventions of the embedding

* Kernel memory is passed explicitly.  `uda_state` holds the two file-scope
  variables of urdma.c (`max_ns`, `ns_array`), the `struct uda_ns` objects the
  providers registered (by address), the `struct uda_obj` objects returned by
  `kzalloc` (by address, `none` where nothing is allocated) and the
  `obj_list` of every `struct uda_file` (by address of the file).
* A pointer is the natural number of its address.  A nullable pointer that
  the code tests against NULL is an `Option`.  `ERR_PTR` results are `Except`.
* A function that dereferences memory returns `Option`: `none` is an access
  the C program has no right to make (NULL or dangling dereference, array
  index out of range).
* Unsigned machine integers are `Nat`; where the C code can wrap, the
  reduction modulo `2 ^ w` is written out.  `atomic_t use_cnt` is an `Int`.
  One request holds at most 255 references and the number of requests in
  flight is bounded by the number of tasks, so the counter stays far from
  `2 ^ 31` and `atomic_inc`, `atomic_dec` are plain `+ 1`, `- 1`.
* `mutex_lock`, `down_read` and friends are no-ops: the embedding is the
  sequential semantics of one call.
* The flexible union `u` of `struct uda_ioctl` is the sequence of its 64-bit
  words `u.data[i]`; `u.obj_id[i]`, `u.arg[i]` and `u.obj[i]` are views of
  word `i` (little endian, as on every architecture the driver builds for).
  The words go on behind the declared length: what the function reads there
  is whatever the memory behind the buffer holds.
* What the kernel library decides (the results of `copy_from_user`, `kmalloc`,
  `kzalloc`, and a failure inside `idr_alloc`) is an input of the function
  that makes the call (`uda_user`, `uda_env`).
* A handler `desc->func` is a pure function of the name space pointer and the
  request buffer.

The file has two parts: the definitions (the embedding, then the auxiliary
definitions and a small concrete system used by the statements) and the
theorems (shared lemmas, then the claims C1, C2, ... in order).
-/

namespace Urdma

/-! ## Constants -/

/-- The errno value ENOENT. -/
abbrev ENOENT : Int := 2
/-- The errno value ENOMEM. -/
abbrev ENOMEM : Int := 12
/-- The errno value EFAULT. -/
abbrev EFAULT : Int := 14
/-- The errno value EBUSY. -/
abbrev EBUSY : Int := 16
/-- The errno value ENODEV. -/
abbrev ENODEV : Int := 19
/-- The errno value EINVAL. -/
abbrev EINVAL : Int := 22
/-- The errno value ENOSPC. -/
abbrev ENOSPC : Int := 28
/-- The errno value ENOSYS. -/
abbrev ENOSYS : Int := 38

/-- Flag `UDA_OPEN` of rdma_uapi.h: the operation allocates a kernel object. -/
abbrev UDA_OPEN : Nat := 1
/-- Flag `UDA_CLOSED` of rdma_uapi.h: the operation destroys a kernel object. -/
abbrev UDA_CLOSED : Nat := 2
/-- Flag `UDA_EXCL` of rdma_uapi.h: exclusive access. -/
abbrev UDA_EXCL : Nat := 4
/-- Flag `UDA_EVENT` of rdma_uapi.h. -/
abbrev UDA_EVENT : Nat := 8

/-- Bit `UDA_RAW_OP` of rdma_ioctl.h. -/
abbrev UDA_RAW_OP : Nat := 128
/-- Command number `UDA_UBER_OP` of rdma_ioctl.h. -/
abbrev UDA_UBER_OP : Nat := 3
/-- Attribute id `UDA_IOVEC` (second enumerator of the attribute enum). -/
abbrev UDA_IOVEC : Nat := 1
/-- Attribute id `UDA_UCONTEXT` (fourth enumerator of the attribute enum). -/
abbrev UDA_UCONTEXT : Nat := 3
/-- The value of `UDA_NS_MGR_BASE`, that is `UDA_NS_MGR * UDA_OP_RANGE`. -/
abbrev UDA_NS_MGR_BASE : Nat := 0
/-- The value of `UDA_NS_MGR_IOCTLS`. -/
abbrev UDA_NS_MGR_IOCTLS : Nat := 1

/-- The number of entries of `ns_array`. -/
abbrev NS_ARRAY_SIZE : Nat := 64
/-- The size of `struct uda_ioctl`: 2 + 2 + 4 + 4 + 1 + 1 + 2 bytes, the union
of zero-length arrays adds nothing. -/
abbrev SIZEOF_HDR : Nat := 16
/-- The size of the union `u` of `struct uda_ioctl`: all its members are
zero-length arrays, so GNU C gives it size 0. -/
abbrev SIZEOF_HDR_U : Nat := 0
/-- The size of `stack_data` in `uda_ioctl`. -/
abbrev SIZEOF_STACK_DATA : Nat := 128
/-- The largest value of a C `int`. -/
abbrev INT_MAX : Int := 2147483647
/-- The 16-bit complement of `UDA_EXCL`: the value of `~UDA_EXCL` once the
result of the `&=` is stored back into the `u16` flags. -/
abbrev NOT_UDA_EXCL : Nat := 65535 ^^^ UDA_EXCL

/-! ## Data model -/

/-- The C type `struct uda_obj_id` (rdma_ioctl.h). -/
structure uda_obj_id where
  instance_id : Nat
  obj_type : Nat
  data : Nat
deriving DecidableEq

/-- The C type `struct uda_arg` (rdma_ioctl.h). -/
structure uda_arg where
  offset : Nat
  attr_id : Nat
  length : Nat
  data : Nat
deriving DecidableEq

/-- The C type `struct uda_ioctl` (rdma_ioctl.h).  `u i` is the 64-bit word
`u.data[i]`, the word at byte offset `16 + 8 * i`. -/
structure uda_ioctl where
  ns_id : Nat
  length : Nat
  op : Nat
  flags : Nat
  obj_cnt : Nat
  arg_cnt : Nat
  resv : Nat
  u : Nat → Nat

/-- The C type `struct uda_ioctl_desc` (rdma_uapi.h).  The handler `func`
receives the name space pointer and the request buffer and returns a long;
handlers are outside this file and are taken as pure functions. -/
structure uda_ioctl_desc where
  flags : Nat
  func : Nat → uda_ioctl → Int

/-- What a `struct uda_ioctl_desc *` returned by `ns->ioctl_desc` can be: an
`ERR_PTR`, NULL, or a pointer to a descriptor. -/
inductive desc_ptr where
  | err (e : Int)
  | null
  | ok (d : uda_ioctl_desc)

/-- The C type `struct uda_ns` (rdma_uapi.h).  The idr is the list of its
(id, pointer) entries. -/
structure uda_ns where
  id : Int
  flags : Nat
  idr : List (Nat × Nat)
  ioctl_base : Nat
  num_ioctls : Int
  ioctl_desc : uda_ioctl → desc_ptr

/-- The C type `struct uda_obj` (rdma_uapi.h); `entry` is represented by
membership in `uda_state.obj_list`. -/
structure uda_obj where
  ucontext : Nat
  kcontext : Nat
  file : Nat
  instance_id : Nat
  obj_type : Nat
  flags : Nat
  use_cnt : Int
deriving DecidableEq

/-- The kernel memory the dispatcher works on. -/
structure uda_state where
  max_ns : Nat
  ns_array : Nat → Option Nat
  ns_mem : Nat → uda_ns
  obj_mem : Nat → Option uda_obj
  obj_list : Nat → List Nat

/-- The map `f` with the value at `a` replaced by `v`: a store to one cell of
an array or of memory. -/
def upd {β : Type} (f : Nat → β) (a : Nat) (v : β) : Nat → β :=
  fun x => if x = a then v else f x

/-! ## Views of the union `u` -/

/-- The view `ioctl->u.obj_id[i]`. -/
def u_obj_id (ioctl : uda_ioctl) (i : Nat) : uda_obj_id :=
  { instance_id := ioctl.u i % 2 ^ 32,
    obj_type := ioctl.u i / 2 ^ 32 % 2 ^ 16,
    data := ioctl.u i / 2 ^ 48 % 2 ^ 16 }

/-- The view `ioctl->u.arg[i]`. -/
def u_arg (ioctl : uda_ioctl) (i : Nat) : uda_arg :=
  { offset := ioctl.u i % 2 ^ 16,
    attr_id := ioctl.u i / 2 ^ 16 % 2 ^ 16,
    length := ioctl.u i / 2 ^ 32 % 2 ^ 16,
    data := ioctl.u i / 2 ^ 48 % 2 ^ 16 }

/-- The view `ioctl->u.obj[i]`: the word read as a pointer. -/
def u_obj (ioctl : uda_ioctl) (i : Nat) : Nat :=
  ioctl.u i

/-- The assignment `ioctl->u.obj[i] = p`. -/
def set_u_obj (ioctl : uda_ioctl) (i : Nat) (p : Nat) : uda_ioctl :=
  { ioctl with u := upd ioctl.u i p }

/-- The assignment `ioctl->u.obj_id[i].instance_id = v` (low 32 bits of the word). -/
def set_instance_id (ioctl : uda_ioctl) (i : Nat) (v : Nat) : uda_ioctl :=
  { ioctl with u := upd ioctl.u i (ioctl.u i / 2 ^ 32 * 2 ^ 32 + v % 2 ^ 32) }

/-- The assignment `ioctl->u.obj_id[i].obj_type = v` (bits 32..47 of the word). -/
def set_obj_type (ioctl : uda_ioctl) (i : Nat) (v : Nat) : uda_ioctl :=
  { ioctl with u := upd ioctl.u i (ioctl.u i / 2 ^ 48 * 2 ^ 48 + v % 2 ^ 16 * 2 ^ 32 + ioctl.u i % 2 ^ 32) }

/-- The assignment `ioctl->u.obj_id[i].data = v` (bits 48..63 of the word). -/
def set_obj_data (ioctl : uda_ioctl) (i : Nat) (v : Nat) : uda_ioctl :=
  { ioctl with u := upd ioctl.u i (v % 2 ^ 16 * 2 ^ 48 + ioctl.u i % 2 ^ 48) }

/-- Byte `k` (0 ≤ k < 16) of the fixed part of `struct uda_ioctl`. -/
def hdr_byte (ioctl : uda_ioctl) (k : Nat) : Nat :=
  if k < 2 then ioctl.ns_id / 256 ^ k % 256
  else if k < 4 then ioctl.length / 256 ^ (k - 2) % 256
  else if k < 8 then ioctl.op / 256 ^ (k - 4) % 256
  else if k < 12 then ioctl.flags / 256 ^ (k - 8) % 256
  else if k = 12 then ioctl.obj_cnt % 256
  else if k = 13 then ioctl.arg_cnt % 256
  else ioctl.resv / 256 ^ (k - 14) % 256

/-- Byte `k` of the memory that starts at the address of the request. -/
def byte_at (ioctl : uda_ioctl) (k : Nat) : Nat :=
  if k < SIZEOF_HDR then hdr_byte ioctl k
  else ioctl.u ((k - SIZEOF_HDR) / 8) / 256 ^ ((k - SIZEOF_HDR) % 8) % 256

/-- The read `*(u64 *) UDA_ARG_DATA(ioctl, argi)`: the eight bytes at byte
offset `u.arg[argi].offset` from the start of the request. -/
def UDA_ARG_DATA_u64 (ioctl : uda_ioctl) (argi : Nat) : Nat :=
  (List.range 8).foldr (fun t acc => byte_at ioctl ((u_arg ioctl argi).offset + t) + 256 * acc) 0

/-! ## Kernel library calls

The idr, the allocator and the list primitives live outside urdma.c. -/

/-- Modelled from the spec: `idr_find`, the pointer stored under `id`, NULL
(`none`) when the id is not live. -/
def idr_find (idr : List (Nat × Nat)) (id : Nat) : Option Nat :=
  List.lookup id idr

/-- Modelled from the spec: `idr_remove`, the id is no longer live. -/
def idr_remove (idr : List (Nat × Nat)) (id : Nat) : List (Nat × Nat) :=
  idr.filter (fun e => e.1 != id)

/-- Modelled from the spec: the id `idr_alloc` picks with start 0 and no upper
end, the smallest id that is not live. -/
def idr_first_free (idr : List (Nat × Nat)) : Option Nat :=
  (List.range (idr.length + 1)).find? (fun i => (idr_find idr i).isNone)

/-- Modelled from the spec: `idr_alloc(idr, ptr, 0, 0, GFP_KERNEL)`.  It
returns the new id and stores `ptr` under it, or returns a negative errno and
leaves the idr alone.  `fail` is the outcome of the memory allocation inside
the idr: `some e` makes the call return `e`. -/
def idr_alloc (fail : Option Int) (idr : List (Nat × Nat)) (ptr : Nat) : Int × List (Nat × Nat) :=
  match fail with
  | some e => (e, idr)
  | none =>
    match idr_first_free idr with
    | none => (-ENOSPC, idr)
    | some id => if (id : Int) ≤ INT_MAX then ((id : Int), (id, ptr) :: idr) else (-ENOSPC, idr)

/-- What the environment decides during one request: the pointer `kzalloc`
returns in `uda_pre_open` (`none` is NULL) and whether the allocation inside
`idr_alloc` fails. -/
structure uda_env where
  kzalloc : Option Nat
  idr_fail : Option Int

/-- The conversion of a C `int` to `u32`. -/
def to_u32 (x : Int) : Nat :=
  (x % 2 ^ 32).toNat

/-- Modelled from the spec: `list_del(&obj->entry)`, the object at `p` is
unlinked from the list it is on. -/
def list_del (lists : Nat → List Nat) (p : Nat) : Nat → List Nat :=
  fun f => (lists f).filter (fun q => q != p)

/-- Modelled from the spec: `list_add(&obj->entry, &file->obj_list)`, the
object at `p` becomes the first entry of the list of `file`. -/
def list_add (lists : Nat → List Nat) (p : Nat) (file : Nat) : Nat → List Nat :=
  upd lists file (p :: lists file)

/-! ## The object table: urdma.c lines 49-93 -/

/-- The function `uda_get_obj`.  The result is `none` when the pointer found
in the idr is dereferenced although nothing is allocated there; otherwise the
memory after the call and either the `ERR_PTR` value or the object pointer. -/
def uda_get_obj (s : uda_state) (file : Nat) (ns : Nat) (id : uda_obj_id) (excl : Bool) :
    Option (uda_state × Except Int Nat) :=
  if id.data ≠ 0 then some (s, .error (-EINVAL))
  else
    match idr_find (s.ns_mem ns).idr id.instance_id with
    | none => some (s, .error (-ENOENT))
    | some p =>
      match s.obj_mem p with
      | none => none
      | some obj =>
        if obj.obj_type ≠ id.obj_type ∨ obj.file ≠ file then some (s, .error (-ENOENT))
        else if obj.flags &&& UDA_EXCL ≠ 0 ∨ (excl = true ∧ obj.use_cnt ≠ 0) then
          some (s, .error (-EBUSY))
        else
          let obj1 := if excl then { obj with flags := obj.flags ||| UDA_EXCL } else obj
          let obj2 := { obj1 with use_cnt := obj1.use_cnt + 1 }
          some ({ s with obj_mem := upd s.obj_mem p (some obj2) }, .ok p)

/-- The function `uda_put_obj`, on the object at address `p`. -/
def uda_put_obj (s : uda_state) (p : Nat) : Option uda_state :=
  match s.obj_mem p with
  | none => none
  | some obj =>
    let obj1 := if obj.flags &&& UDA_EXCL ≠ 0 then { obj with flags := obj.flags &&& NOT_UDA_EXCL } else obj
    let obj2 := { obj1 with use_cnt := obj1.use_cnt - 1 }
    some { s with obj_mem := upd s.obj_mem p (some obj2) }

/-- The function `uda_unmap_obj`. -/
def uda_unmap_obj (s : uda_state) (ioctl : uda_ioctl) (index : Nat) : Option (uda_state × uda_ioctl) :=
  match s.obj_mem (u_obj ioctl index) with
  | none => none
  | some obj =>
    let ioctl1 := set_instance_id ioctl index obj.instance_id
    let ioctl2 := set_obj_type ioctl1 index obj.obj_type
    let ioctl3 := set_obj_data ioctl2 index 0
    match uda_put_obj s (u_obj ioctl index) with
    | none => none
    | some s1 => some (s1, ioctl3)

/-- The loop of `uda_unmap_objs`, started at index `i` with `k` rounds to go. -/
def uda_unmap_objs_loop : Nat → Nat → uda_state → uda_ioctl → Option (uda_state × uda_ioctl)
  | 0, _, s, ioctl => some (s, ioctl)
  | k + 1, i, s, ioctl =>
    match uda_unmap_obj s ioctl i with
    | none => none
    | some (s1, ioctl1) => uda_unmap_objs_loop k (i + 1) s1 ioctl1

/-- The function `uda_unmap_objs`: indices 0, 1, .., obj_cnt - 1 in this order. -/
def uda_unmap_objs (s : uda_state) (ioctl : uda_ioctl) : Option (uda_state × uda_ioctl) :=
  uda_unmap_objs_loop ioctl.obj_cnt 0 s ioctl

/-! ## Mapping the object slots: urdma.c lines 95-117 -/

/-- The `for` loop of `uda_map_objs`, at index `i` with `k` rounds to go.  The
third component is `none` when the loop ran to its end and `some (i, e)` when
`uda_get_obj` returned `ERR_PTR(e)` at index `i` (the `goto err`). -/
def uda_map_objs_loop (file : Nat) (ns : Nat) (excl : Bool) :
    Nat → Nat → uda_state → uda_ioctl → Option (uda_state × uda_ioctl × Option (Nat × Int))
  | 0, _, s, ioctl => some (s, ioctl, none)
  | k + 1, i, s, ioctl =>
    match uda_get_obj s file ns (u_obj_id ioctl i) (excl && i == 0) with
    | none => none
    | some (s1, .error e) => some (s1, ioctl, some (i, e))
    | some (s1, .ok p) => uda_map_objs_loop file ns excl k (i + 1) s1 (set_u_obj ioctl i p)

/-- The loop `while (i--) uda_unmap_obj(ioctl, i)` under the label `err` of
`uda_map_objs`. -/
def uda_map_objs_unwind : Nat → uda_state → uda_ioctl → Option (uda_state × uda_ioctl)
  | 0, s, ioctl => some (s, ioctl)
  | i + 1, s, ioctl =>
    match uda_unmap_obj s ioctl i with
    | none => none
    | some (s1, ioctl1) => uda_map_objs_unwind i s1 ioctl1

/-- The function `uda_map_objs`; the last component is the returned long. -/
def uda_map_objs (s : uda_state) (file : Nat) (ns : Nat) (ioctl : uda_ioctl) (excl : Bool) :
    Option (uda_state × uda_ioctl × Int) :=
  match uda_map_objs_loop file ns excl ioctl.obj_cnt 0 s ioctl with
  | none => none
  | some (s1, ioctl1, none) => some (s1, ioctl1, 0)
  | some (s1, ioctl1, some (i, e)) =>
    match uda_map_objs_unwind i s1 ioctl1 with
    | none => none
    | some (s2, ioctl2) => some (s2, ioctl2, e)

/-! ## Post-processing: urdma.c lines 119-141 -/

/-- The function `uda_post_close`. -/
def uda_post_close (s : uda_state) (ns : Nat) (ioctl : uda_ioctl) : Option (uda_state × uda_ioctl) :=
  let p := u_obj ioctl 0
  let ioctl1 := set_u_obj ioctl 0 0
  match s.obj_mem p with
  | none => none
  | some obj =>
    let nsv := s.ns_mem ns
    let ns_mem1 := upd s.ns_mem ns { nsv with idr := idr_remove nsv.idr obj.instance_id }
    let obj_list1 := list_del s.obj_list p
    some ({ s with ns_mem := ns_mem1, obj_list := obj_list1, obj_mem := upd s.obj_mem p none },
      ioctl1)

/-- The function `uda_post_common`. -/
def uda_post_common (s : uda_state) (ns : Nat) (ioctl : uda_ioctl) (desc : uda_ioctl_desc) :
    Option (uda_state × uda_ioctl) :=
  if desc.flags &&& UDA_CLOSED ≠ 0 then uda_post_close s ns ioctl
  else uda_unmap_objs s ioctl

/-! ## Pre-processing: urdma.c lines 143-230 and rdma_uapi.h lines 121-128 -/

/-- The inline function `uda_check_arg` of rdma_uapi.h. -/
def uda_check_arg (ioctl : uda_ioctl) (index : Nat) (attr_id : Nat) (length : Nat) : Int :=
  if (u_arg ioctl index).attr_id ≠ attr_id ∨ (u_arg ioctl index).length ≠ length then -EINVAL else 0

/-- The function `uda_pre_open`; the last component is the returned long. -/
def uda_pre_open (env : uda_env) (s : uda_state) (file : Nat) (ns : Nat) (ioctl : uda_ioctl) :
    uda_state × uda_ioctl × Int :=
  let index := ioctl.obj_cnt
  if ioctl.arg_cnt = 0 then (s, ioctl, -EINVAL)
  else if uda_check_arg ioctl index UDA_UCONTEXT 8 ≠ 0 then
    (s, ioctl, uda_check_arg ioctl index UDA_UCONTEXT 8)
  else
    match env.kzalloc with
    | none => (s, ioctl, -ENOMEM)
    | some p =>
      let arg := u_arg ioctl index
      let nsv := s.ns_mem ns
      let r := idr_alloc env.idr_fail nsv.idr p
      let obj : uda_obj :=
        { ucontext := UDA_ARG_DATA_u64 ioctl index, kcontext := 0, file := file,
          instance_id := to_u32 r.1, obj_type := arg.data, flags := UDA_EXCL, use_cnt := 1 }
      let s1 := { s with obj_mem := upd s.obj_mem p (some obj),
                         ns_mem := upd s.ns_mem ns { nsv with idr := r.2 } }
      let s2 := if (0 : Int) ≤ (obj.instance_id : Int) then
          { s1 with obj_list := list_add s1.obj_list p file } else s1
      if (obj.instance_id : Int) < 0 then
        ({ s2 with obj_mem := upd s2.obj_mem p none }, ioctl, -ENOMEM)
      else
        let ioctl1 := set_u_obj ioctl ioctl.obj_cnt p
        let ioctl2 := { ioctl1 with obj_cnt := (ioctl1.obj_cnt + 1) % 256 }
        let ioctl3 := { ioctl2 with arg_cnt := (ioctl2.arg_cnt + 255) % 256 }
        (s2, ioctl3, 0)

/-- The function `uda_check_args`. -/
def uda_check_args (ioctl : uda_ioctl) : Int :=
  if (List.range ioctl.arg_cnt).any (fun i =>
      decide ((u_arg ioctl (i + ioctl.obj_cnt)).offset + (u_arg ioctl (i + ioctl.obj_cnt)).length
        > ioctl.length)) then -EINVAL
  else 0

/-- The two tests at the head of `uda_pre_common` (urdma.c lines 205-213):
`some e` when one of them returns `e`. -/
def uda_pre_common_gate (s : uda_state) (ns : Nat) (ioctl : uda_ioctl) (desc : uda_ioctl_desc) :
    Option Int :=
  if desc.flags &&& UDA_CLOSED ≠ 0 then
    (if ioctl.obj_cnt ≠ 1 then some (-EINVAL) else none)
  else
    (if (s.ns_mem ns).flags &&& UDA_CLOSED ≠ 0 then some (-ENODEV) else none)

/-- The function `uda_pre_common`; the last component is the returned long. -/
def uda_pre_common (env : uda_env) (s : uda_state) (file : Nat) (ns : Nat) (ioctl : uda_ioctl)
    (desc : uda_ioctl_desc) : Option (uda_state × uda_ioctl × Int) :=
  match uda_pre_common_gate s ns ioctl desc with
  | some e => some (s, ioctl, e)
  | none =>
    match uda_map_objs s file ns ioctl (decide (desc.flags &&& UDA_EXCL ≠ 0)) with
    | none => none
    | some (s1, ioctl1, ret) =>
      if ret ≠ 0 then some (s1, ioctl1, ret)
      else if desc.flags &&& UDA_OPEN ≠ 0 then
        match uda_pre_open env s1 file ns ioctl1 with
        | (s2, ioctl2, ret2) =>
          if ret2 ≠ 0 then
            match uda_unmap_objs s2 ioctl2 with
            | none => none
            | some (s3, ioctl3) => some (s3, ioctl3, ret2)
          else some (s2, ioctl2, uda_check_args ioctl2)
      else some (s1, ioctl1, uda_check_args ioctl1)

/-! ## The entry point: urdma.c lines 232-299 -/

/-- The fields `_IOC_NR(cmd)` and `_IOC_SIZE(cmd)` of the ioctl command word. -/
structure ioc_cmd where
  nr : Nat
  size : Nat

/-- What the two `copy_from_user` calls and `kmalloc` deliver during one call
of the function `uda_ioctl`.  `hdr` is the local `hdr` after the first copy (`none`: the
copy faulted); its `u` is whatever lies behind the 16 copied bytes.  `kmalloc`
tells whether `kmalloc(hdr.length)` returns memory.  `data` is the kernel
buffer after the second copy (`none`: the copy faulted). -/
structure uda_user where
  hdr : Option uda_ioctl
  kmalloc : Bool
  data : Option uda_ioctl

/-- The outcome of the function `uda_ioctl`: the returned long, the kernel memory, the
request buffer when one was filled, and whether `desc->func` was called. -/
structure ioctl_result where
  ret : Int
  s : uda_state
  data : Option uda_ioctl
  called : Bool

/-- The conversion of a C `int` to `uint64_t`. -/
def to_u64 (x : Int) : Nat :=
  (x % 2 ^ 64).toNat

/-- The function `uda_ioctl` (the name `uda_ioctl` itself is taken by the
structure).  `file` is `filp->private_data`. -/
def uda_ioctl_entry (env : uda_env) (s : uda_state) (file : Nat) (cmd : ioc_cmd) (user : uda_user) :
    Option ioctl_result :=
  if cmd.nr &&& UDA_RAW_OP ≠ 0 then some ⟨-ENOSYS, s, none, false⟩
  else if cmd.nr ≠ UDA_UBER_OP ∨ cmd.size < SIZEOF_HDR then some ⟨-EINVAL, s, none, false⟩
  else
    match user.hdr with
    | none => some ⟨-EFAULT, s, none, false⟩
    | some hdr =>
      -- lines 250-252: `ret` is assigned here and never read, every path
      -- below assigns it again before the label `out`
      let _ret : Option Int :=
        if (hdr.obj_cnt + hdr.arg_cnt) * SIZEOF_HDR_U + SIZEOF_HDR > hdr.length ∨ hdr.resv ≠ 0
        then some (-EINVAL) else none
      if hdr.ns_id > s.max_ns then some ⟨-EINVAL, s, none, false⟩
      else if hdr.ns_id ≥ NS_ARRAY_SIZE then none
      else
        match s.ns_array hdr.ns_id with
        | none => some ⟨-EINVAL, s, none, false⟩
        | some ns =>
          if hdr.op < (s.ns_mem ns).ioctl_base ∨
              hdr.op ≥ ((s.ns_mem ns).ioctl_base + to_u64 (s.ns_mem ns).num_ioctls) % 2 ^ 64 then
            some ⟨-ENOSYS, s, none, false⟩
          else
            match (s.ns_mem ns).ioctl_desc hdr with
            | .err e => some ⟨e, s, none, false⟩
            | descp =>
              if hdr.length > SIZEOF_STACK_DATA ∧ user.kmalloc = false then
                some ⟨-ENOMEM, s, none, false⟩
              else
                match user.data with
                | none => some ⟨-EFAULT, s, none, false⟩
                | some data =>
                  match descp with
                  | .err _ => none
                  | .null => none
                  | .ok desc =>
                    match uda_pre_common env s file ns data desc with
                    | none => none
                    | some (s1, data1, ret) =>
                      if ret ≠ 0 then some ⟨ret, s1, some data1, false⟩
                      else
                        match uda_post_common s1 ns data1 desc with
                        | none => none
                        | some (s2, data2) => some ⟨desc.func ns data1, s2, some data2, true⟩

/-! ## The name space registry: urdma.c lines 301-337 -/

/-- The `for` loop of `uda_add_ns`, at index `i` with `k` rounds to go before
`i` reaches `max_ns`; the result is the value of `i` after the loop. -/
def uda_add_ns_loop (ns_array : Nat → Option Nat) : Nat → Nat → Nat
  | 0, i => i
  | k + 1, i => if (ns_array i).isNone then i else uda_add_ns_loop ns_array k (i + 1)

/-- The function `uda_add_ns`, called with the address `ns`; the second
component is the returned int. -/
def uda_add_ns (s : uda_state) (ns : Nat) : uda_state × Int :=
  if s.max_ns ≥ 64 then (s, -ENOMEM)
  else
    let i := uda_add_ns_loop s.ns_array s.max_ns 0
    let s1 := { s with ns_array := upd s.ns_array i (some ns),
                       ns_mem := upd s.ns_mem ns { s.ns_mem ns with id := (i : Int) } }
    (if i = s.max_ns then { s1 with max_ns := s1.max_ns + 1 } else s1, 0)

/-- The `while` loop of `uda_remove_ns` at `max_ns = m`; the result is the
final `max_ns`, or `none` when the loop reads `ns_array[max_ns - 1]` with an
index outside 0..63. -/
def uda_remove_ns_loop (ns_array : Nat → Option Nat) : Nat → Option Nat
  | 0 => none
  | m + 1 =>
    if m ≥ NS_ARRAY_SIZE then none
    else if (ns_array m).isNone then uda_remove_ns_loop ns_array m
    else some (m + 1)

/-- The function `uda_remove_ns`, called with the address `ns`. -/
def uda_remove_ns (s : uda_state) (ns : Nat) : Option uda_state :=
  let nsv := s.ns_mem ns
  let ns_mem1 := upd s.ns_mem ns { nsv with flags := nsv.flags ||| UDA_CLOSED }
  if nsv.id < 0 ∨ nsv.id ≥ (NS_ARRAY_SIZE : Int) then none
  else
    let ns_array1 := upd s.ns_array nsv.id.toNat none
    match uda_remove_ns_loop ns_array1 s.max_ns with
    | none => none
    | some m => some { s with ns_mem := ns_mem1, ns_array := ns_array1, max_ns := m }

/-! ## Auxiliary definitions for the statements -/

/-- The object after a successful `uda_get_obj`. -/
def obj_get (o : uda_obj) (excl : Bool) : uda_obj :=
  { (if excl then { o with flags := o.flags ||| UDA_EXCL } else o) with
    use_cnt := (if excl then { o with flags := o.flags ||| UDA_EXCL } else o).use_cnt + 1 }

/-- The object after `uda_put_obj`. -/
def obj_put (o : uda_obj) : uda_obj :=
  { (if o.flags &&& UDA_EXCL ≠ 0 then { o with flags := o.flags &&& NOT_UDA_EXCL } else o) with
    use_cnt := (if o.flags &&& UDA_EXCL ≠ 0 then { o with flags := o.flags &&& NOT_UDA_EXCL } else o).use_cnt - 1 }

/-- The word `uda_unmap_obj` leaves in a slot: the identifier of the object
with `data = 0`. -/
def obj_id_word (o : uda_obj) : Nat :=
  o.obj_type % 2 ^ 16 * 2 ^ 32 + o.instance_id % 2 ^ 32

/-- The representation invariant of the object table of name space `ns`:
the idr leads to allocated objects that carry the id they are stored under,
with flags in the range of a `u16`. -/
def table_wf (s : uda_state) (ns : Nat) : Prop :=
  ∀ id p, idr_find (s.ns_mem ns).idr id = some p →
    ∃ o, s.obj_mem p = some o ∧ o.instance_id = id ∧ o.flags < 2 ^ 16

/-- The word of a slot that holds the identifier {instance_id, obj_type, data}. -/
def id_word (instance_id obj_type data : Nat) : Nat :=
  instance_id + obj_type * 2 ^ 32 + data * 2 ^ 48

/-- The word of a slot that holds the argument {offset, attr_id, length, data}. -/
def arg_word (offset attr_id length data : Nat) : Nat :=
  offset + attr_id * 2 ^ 16 + length * 2 ^ 32 + data * 2 ^ 48

/-! ## A small concrete system

One provider name space at address 1000, registered in slot 1, with the
operations 128 (plain), 129 (creates), 130 (destroys, exclusive) and 131
(plain, exclusive, its handler fails with -EIO); two objects owned by the session at address 7. -/

/-- The descriptor table of the example name space. -/
def ex_desc (op : Nat) : uda_ioctl_desc :=
  if op = 129 then { flags := UDA_OPEN, func := fun _ _ => 0 }
  else if op = 130 then { flags := UDA_CLOSED ||| UDA_EXCL, func := fun _ _ => 0 }
  else if op = 131 then { flags := UDA_EXCL, func := fun _ _ => -5 }
  else { flags := 0, func := fun _ _ => 0 }

/-- The example name space. -/
def ex_ns : uda_ns :=
  { id := 1, flags := 0, idr := [(0, 100), (1, 101)], ioctl_base := 128, num_ioctls := 4,
    ioctl_desc := fun hdr => .ok (ex_desc hdr.op) }

/-- The object with id 0: type 1, owned by session 7, not in use. -/
def ex_obj0 : uda_obj :=
  { ucontext := 0, kcontext := 0, file := 7, instance_id := 0, obj_type := 1, flags := 0, use_cnt := 0 }

/-- The object with id 1: type 2, owned by session 7, not in use. -/
def ex_obj1 : uda_obj :=
  { ucontext := 0, kcontext := 0, file := 7, instance_id := 1, obj_type := 2, flags := 0, use_cnt := 0 }

/-- The example kernel memory. -/
def ex_state : uda_state :=
  { max_ns := 2,
    ns_array := fun i => if i = 1 then some 1000 else none,
    ns_mem := fun _ => ex_ns,
    obj_mem := fun p => if p = 100 then some ex_obj0 else if p = 101 then some ex_obj1 else none,
    obj_list := fun f => if f = 7 then [101, 100] else [] }

/-- An environment in which both allocations of `uda_pre_open` succeed. -/
def ex_env : uda_env :=
  { kzalloc := some 200, idr_fail := none }

/-- A request buffer with the given counts, length, operation and words. -/
def ex_req (op length obj_cnt arg_cnt : Nat) (words : List Nat) : uda_ioctl :=
  { ns_id := 1, length := length, op := op, flags := 0, obj_cnt := obj_cnt, arg_cnt := arg_cnt,
    resv := 0, u := fun i => words.getD i 0 }

/-- The user memory of a destroying request on object 0 whose reserved field
is 1. -/
def ex_resv_req : uda_ioctl :=
  { ex_req 130 24 1 0 [id_word 0 1 0] with resv := 1 }

/-- A decision procedure for (a sufficient condition of) `table_wf`: every
entry of the idr leads to an allocated object with that id and 16-bit flags. -/
def table_wf_check (s : uda_state) (ns : Nat) : Bool :=
  (s.ns_mem ns).idr.all (fun e =>
    match s.obj_mem e.2 with
    | some o => decide (o.instance_id = e.1 ∧ o.flags < 2 ^ 16)
    | none => false)

/-- An environment in which `kzalloc` succeeds and `idr_alloc` fails with
-ENOMEM. -/
def ex_env_idr_fail : uda_env :=
  { kzalloc := some 200, idr_fail := some (-ENOMEM) }

/-- A creating request without object slots: the session-context argument at
offset 24 with data (the new type) 9, and the 8 bytes `v` behind it. -/
def ex_req_create (v : Nat) : uda_ioctl :=
  ex_req 129 32 0 1 [arg_word 24 UDA_UCONTEXT 8 9, v]

/-- A name space structure of a provider before registration. -/
def ex_blank_ns : uda_ns :=
  { id := 0, flags := 0, idr := [], ioctl_base := 128, num_ioctls := 4,
    ioctl_desc := fun hdr => .ok (ex_desc hdr.op) }

/-- The registry before the first `uda_add_ns`: no slot in use. -/
def ex_empty : uda_state :=
  { max_ns := 0, ns_array := fun _ => none, ns_mem := fun _ => ex_blank_ns,
    obj_mem := fun _ => none, obj_list := fun _ => [] }

/-- The memory after `uda_add_ns` was called for each address of the list in
turn, and the list of the values the calls returned. -/
def add_all : uda_state → List Nat → uda_state × List Int
  | s, [] => (s, [])
  | s, p :: ps =>
    match uda_add_ns s p with
    | (s1, r) =>
      match add_all s1 ps with
      | (s2, rs) => (s2, r :: rs)

/-- The registry after 64 registrations, of the name spaces at the addresses
2000, 2001, .., 2063. -/
def ex_full : uda_state :=
  (add_all ex_empty ((List.range 64).map (fun i => 2000 + i))).1

/-- The object `uda_pre_open` builds at the address `p`. -/
def pre_open_obj (env : uda_env) (s : uda_state) (file ns : Nat) (ioctl : uda_ioctl) (p : Nat) :
    uda_obj :=
  { ucontext := UDA_ARG_DATA_u64 ioctl ioctl.obj_cnt, kcontext := 0, file := file,
    instance_id := to_u32 (idr_alloc env.idr_fail (s.ns_mem ns).idr p).1,
    obj_type := (u_arg ioctl ioctl.obj_cnt).data, flags := UDA_EXCL, use_cnt := 1 }

/-- The memory `uda_pre_open` leaves when it returns 0 with the new object at `p`. -/
def pre_open_state (env : uda_env) (s : uda_state) (file ns : Nat) (ioctl : uda_ioctl) (p : Nat) :
    uda_state :=
  { s with
    obj_mem := upd s.obj_mem p (some (pre_open_obj env s file ns ioctl p)),
    ns_mem := upd s.ns_mem ns
      { s.ns_mem ns with idr := (idr_alloc env.idr_fail (s.ns_mem ns).idr p).2 },
    obj_list := list_add s.obj_list p file }

/-- The request buffer `uda_pre_open` leaves when it returns 0 with the new
object at `p`. -/
def pre_open_ioctl (ioctl : uda_ioctl) (p : Nat) : uda_ioctl :=
  { ioctl with u := upd ioctl.u ioctl.obj_cnt p,
               obj_cnt := (ioctl.obj_cnt + 1) % 256,
               arg_cnt := (ioctl.arg_cnt + 255) % 256 }

/-- The command word of the structured ioctl: number `UDA_UBER_OP`, size 16. -/
def ex_cmd : ioc_cmd :=
  { nr := UDA_UBER_OP, size := 16 }

/-- The user memory seen by `uda_ioctl` for a request buffer: both copies
succeed and deliver the buffer. -/
def ex_user (ioctl : uda_ioctl) : uda_user :=
  { hdr := some ioctl, kmalloc := true, data := some ioctl }

/-- The example memory after two calls of `uda_ioctl` by session 7: the
destroying operation 130 on {id 0, type 1}, then the creating operation 129
with new type 1 and session context 5. -/
def ex_close_then_open : Option uda_state :=
  match uda_ioctl_entry ex_env ex_state 7 ex_cmd (ex_user (ex_req 130 24 1 0 [id_word 0 1 0])) with
  | none => none
  | some r1 =>
    match uda_ioctl_entry ex_env r1.s 7 ex_cmd
        (ex_user (ex_req 129 32 0 1 [arg_word 24 UDA_UCONTEXT 8 1, 5])) with
    | none => none
    | some r2 => some r2.s

/-- The buffer of the destroying request on {id 0, type 1} after mapping: slot
0 holds the address of object 0. -/
def ex_mapped_close : uda_ioctl :=
  set_u_obj (ex_req 130 24 1 0 [id_word 0 1 0]) 0 100

/-- The example memory and buffer after `uda_post_close` destroyed object 0. -/
def ex_closed : uda_state × uda_ioctl :=
  (uda_post_close ex_state 1000 ex_mapped_close).getD (ex_state, ex_mapped_close)

/-- The result of `uda_pre_open` for session 7 and new type 1 after object 0
was destroyed. -/
def ex_reopened : uda_state × uda_ioctl × Int :=
  uda_pre_open ex_env ex_closed.1 7 1000 (ex_req 129 32 0 1 [arg_word 24 UDA_UCONTEXT 8 1, 5])

/-- A request of operation 131 with the two object slots {0, type 1} and
{1, type 2}. -/
def ex_req_2slots : uda_ioctl :=
  ex_req 131 32 2 0 [id_word 0 1 0, id_word 1 2 0]

/-! ## Parts of `uda_ioctl`, for the statements about single steps -/

/-- Lines 268-293 of urdma.c: `uda_ioctl` from the test `IS_ERR(desc)` on, for
the resolved name space `ns` and the pointer `descp` that `ns->ioctl_desc`
returned. -/
def uda_ioctl_with_desc (env : uda_env) (s : uda_state) (file : Nat) (user : uda_user)
    (hdr : uda_ioctl) (ns : Nat) (descp : desc_ptr) : Option ioctl_result :=
  match descp with
  | .err e => some ⟨e, s, none, false⟩
  | descp =>
    if hdr.length > SIZEOF_STACK_DATA ∧ user.kmalloc = false then
      some ⟨-ENOMEM, s, none, false⟩
    else
      match user.data with
      | none => some ⟨-EFAULT, s, none, false⟩
      | some data =>
        match descp with
        | .err _ => none
        | .null => none
        | .ok desc =>
          match uda_pre_common env s file ns data desc with
          | none => none
          | some (s1, data1, ret) =>
            if ret ≠ 0 then some ⟨ret, s1, some data1, false⟩
            else
              match uda_post_common s1 ns data1 desc with
              | none => none
              | some (s2, data2) => some ⟨desc.func ns data1, s2, some data2, true⟩

/-- Lines 260-293 of urdma.c: `uda_ioctl` from `ns = ns_array[hdr.ns_id]` on,
for the resolved name space `ns`. -/
def uda_ioctl_in_ns (env : uda_env) (s : uda_state) (file : Nat) (user : uda_user)
    (hdr : uda_ioctl) (ns : Nat) : Option ioctl_result :=
  if hdr.op < (s.ns_mem ns).ioctl_base ∨
      hdr.op ≥ ((s.ns_mem ns).ioctl_base + to_u64 (s.ns_mem ns).num_ioctls) % 2 ^ 64 then
    some ⟨-ENOSYS, s, none, false⟩
  else uda_ioctl_with_desc env s file user hdr ns ((s.ns_mem ns).ioctl_desc hdr)

/-- Lines 215-229 of urdma.c: `uda_pre_common` from the call of `uda_map_objs`
on. -/
def uda_pre_common_mapping (env : uda_env) (s : uda_state) (file : Nat) (ns : Nat)
    (ioctl : uda_ioctl) (desc : uda_ioctl_desc) : Option (uda_state × uda_ioctl × Int) :=
  match uda_map_objs s file ns ioctl (decide (desc.flags &&& UDA_EXCL ≠ 0)) with
  | none => none
  | some (s1, ioctl1, ret) =>
    if ret ≠ 0 then some (s1, ioctl1, ret)
    else if desc.flags &&& UDA_OPEN ≠ 0 then
      match uda_pre_open env s1 file ns ioctl1 with
      | (s2, ioctl2, ret2) =>
        if ret2 ≠ 0 then
          match uda_unmap_objs s2 ioctl2 with
          | none => none
          | some (s3, ioctl3) => some (s3, ioctl3, ret2)
        else some (s2, ioctl2, uda_check_args ioctl2)
    else some (s1, ioctl1, uda_check_args ioctl1)

/-! ## The name space manager: urdma.c lines 340-396 -/

/-- The enumerator `UDA_NS_MGR_QUERY` of rdma_ioctl.h. -/
abbrev UDA_NS_MGR_QUERY : Nat := 0
/-- The size of `struct uda_iovec`: two `u64`. -/
abbrev SIZEOF_UDA_IOVEC : Nat := 16

/-- The function `uda_check_query`. -/
def uda_check_query (ioctl : uda_ioctl) : Int :=
  if ioctl.flags ≠ 0 ∨ ioctl.obj_cnt ≠ 0 ∨ ioctl.arg_cnt ≠ 1 then -EINVAL
  else if uda_check_arg ioctl 0 UDA_IOVEC SIZEOF_UDA_IOVEC ≠ 0 then
    uda_check_arg ioctl 0 UDA_IOVEC SIZEOF_UDA_IOVEC
  else 0

/-- The function `uda_query_ns`. -/
def uda_query_ns (_ns : Nat) (_data : uda_ioctl) : Int :=
  -ENOSYS

/-- The array `ns_mgr_check_ops`: one entry, at index `UDA_NS_MGR_QUERY`;
`none` is an index outside the array. -/
def ns_mgr_check_ops (op : Nat) : Option (uda_ioctl → Int) :=
  if op = UDA_NS_MGR_QUERY then some uda_check_query else none

/-- The array `ns_mgr_ops`: one entry, `UDA_DESC(NS_MGR, QUERY, uda_query_ns, 0)`;
`none` is an index outside the array. -/
def ns_mgr_ops (op : Nat) : Option uda_ioctl_desc :=
  if op = UDA_NS_MGR_QUERY then some { flags := 0, func := uda_query_ns } else none

/-- The function `ns_mgr_get_desc`.  It indexes the two arrays with
`op = ioctl->op - UDA_NS_MGR_BASE` (a `u32`); `uda_ioctl` calls it only after
the range test of the operation code, so the index is inside the arrays; for
an index outside them, which has no defined result, the value here is NULL. -/
def ns_mgr_get_desc (ioctl : uda_ioctl) : desc_ptr :=
  match ns_mgr_check_ops ((ioctl.op - UDA_NS_MGR_BASE) % 2 ^ 32),
        ns_mgr_ops ((ioctl.op - UDA_NS_MGR_BASE) % 2 ^ 32) with
  | some check, some desc => if check ioctl ≠ 0 then .null else .ok desc
  | _, _ => .null

/-- The static variable `ns_mgr` as initialised at line 384 (`id` and `flags`
are zero like all static storage, the idr is empty). -/
def ns_mgr : uda_ns :=
  { id := 0, flags := 0, idr := [], ioctl_base := UDA_NS_MGR_BASE,
    num_ioctls := (UDA_NS_MGR_IOCTLS : Int), ioctl_desc := ns_mgr_get_desc }

/-- The function `uda_init`; `ns_mgr_addr` is the address of the static
variable `ns_mgr`.  The value returned by `uda_add_ns` is dropped. -/
def uda_init (s : uda_state) (ns_mgr_addr : Nat) : uda_state :=
  (uda_add_ns s ns_mgr_addr).1

/-! ## The table as a transition system

A configuration is the kernel memory together with the list of the object
pointers of all references that were handed out and not yet given back (one
entry per reference). -/

/-- One table operation.  `acquire` is a successful `uda_get_obj`; `release`
is `uda_put_obj` on a reference that is outstanding; `create` is a
`uda_pre_open` that returns 0, where `kzalloc` hands out an address at which
nothing is allocated (it may be the address of an object that was freed
before), and the creating request holds the new reference; `destroy` is
`uda_post_close` by a request that holds a reference to the object, which
ends with the object; references that other requests hold stay outstanding. -/
inductive table_step : uda_state × List Nat → uda_state × List Nat → Prop where
  | acquire (s s1 : uda_state) (held : List Nat) (file ns : Nat) (id : uda_obj_id) (excl : Bool)
      (p : Nat) (h : uda_get_obj s file ns id excl = some (s1, .ok p)) :
      table_step (s, held) (s1, p :: held)
  | release (s s1 : uda_state) (held : List Nat) (p : Nat) (hp : p ∈ held)
      (h : uda_put_obj s p = some s1) : table_step (s, held) (s1, held.erase p)
  | create (env : uda_env) (s s1 : uda_state) (held : List Nat) (file ns : Nat)
      (ioctl io1 : uda_ioctl) (p : Nat) (hk : env.kzalloc = some p) (hfree : s.obj_mem p = none)
      (h : uda_pre_open env s file ns ioctl = (s1, io1, 0)) :
      table_step (s, held) (s1, p :: held)
  | destroy (s s1 : uda_state) (held : List Nat) (ns : Nat) (ioctl io1 : uda_ioctl)
      (hp : u_obj ioctl 0 ∈ held) (h : uda_post_close s ns ioctl = some (s1, io1)) :
      table_step (s, held) (s1, held.erase (u_obj ioctl 0))

/-- The configurations reachable from a memory without objects and without
outstanding references. -/
inductive table_reach : uda_state × List Nat → Prop where
  | init (s : uda_state) (h : ∀ p, s.obj_mem p = none) : table_reach (s, [])
  | step (c c1 : uda_state × List Nat) (hc : table_reach c) (hs : table_step c c1) : table_reach c1

/-- Every object whose exclusive flag is set has use count 1. -/
def table_excl (s : uda_state) : Prop :=
  ∀ p o, s.obj_mem p = some o → o.flags &&& UDA_EXCL ≠ 0 → o.use_cnt = 1

/-- No outstanding reference points to freed memory. -/
def table_live (c : uda_state × List Nat) : Prop :=
  ∀ p, p ∈ c.2 → c.1.obj_mem p ≠ none

/-- The configurations reachable from a memory without objects and without
outstanding references through configurations in which no outstanding
reference points to freed memory: every destroyed object was referenced by
its destroyer alone. -/
inductive table_reach_live : uda_state × List Nat → Prop where
  | init (s : uda_state) (h : ∀ p, s.obj_mem p = none) : table_reach_live (s, [])
  | step (c c1 : uda_state × List Nat) (hc : table_reach_live c) (hs : table_step c c1)
      (hl : table_live c1) : table_reach_live c1

/-- The invariant behind the use counts: the use count of every allocated
object is the number of outstanding references to it, and an exclusive object
has use count 1. -/
def table_inv (c : uda_state × List Nat) : Prop :=
  ∀ p o, c.1.obj_mem p = some o →
    o.use_cnt = (c.2.count p : Int) ∧ (o.flags &&& UDA_EXCL ≠ 0 → o.use_cnt = 1)

/-! ## Further concrete inputs -/

/-- A destroying descriptor without `UDA_EXCL`. -/
def ex_desc_close_shared : uda_ioctl_desc :=
  { flags := UDA_CLOSED, func := fun _ _ => 0 }

/-- The example memory while another request of session 7 holds a shared
reference to object 0 (it has mapped {id 0, type 1} and is in its handler). -/
def ex_state_held : uda_state :=
  match uda_get_obj ex_state 7 1000 ⟨0, 1, 0⟩ false with
  | some (s, _) => s
  | none => ex_state

/-- The destroying request on {id 0, type 1}. -/
def ex_req_close : uda_ioctl :=
  ex_req 130 24 1 0 [id_word 0 1 0]

/-- The result of `uda_pre_common` for the destroying request on object 0
under the exclusive descriptor 130. -/
def ex_closing : uda_state × uda_ioctl × Int :=
  (uda_pre_common ex_env ex_state 7 1000 ex_req_close (ex_desc 130)).getD (ex_state, ex_req_close, 1)

/-- The registry with one registered name space: the one at address 2000, in
slot 0. -/
def ex_single : uda_state :=
  (uda_add_ns ex_empty 2000).1

/-- The example memory with the closed flag of the name space set. -/
def ex_state_ns_closed : uda_state :=
  { ex_state with ns_mem := fun _ => { ex_ns with flags := UDA_CLOSED } }

/-- A registry of two name spaces: a provider without objects at address 999
in slot 0 and the example name space at address 1000 in slot 1, with the two
objects of session 7. -/
def ex_two : uda_state :=
  { ex_state with
    ns_array := fun i => if i = 0 then some 999 else if i = 1 then some 1000 else none,
    ns_mem := fun p => if p = 1000 then ex_ns else ex_blank_ns }

/-- The registry `ex_two` after `uda_remove_ns` of the name space at 1000. -/
def ex_two_removed : uda_state :=
  (uda_remove_ns ex_two 1000).getD ex_two

/-- The kernel memory before `uda_init`: the registry is empty, no object is
allocated, and the static `ns_mgr` lies at address 500. -/
def ex_boot : uda_state :=
  { max_ns := 0, ns_array := fun _ => none, ns_mem := fun _ => ns_mgr,
    obj_mem := fun _ => none, obj_list := fun _ => [] }

/-- A query request to the name space manager with the given flags and the
one argument {offset, UDA_IOVEC, length 16}; declared length 40. -/
def ex_req_query (flags offset : Nat) : uda_ioctl :=
  { ns_id := 0, length := 40, op := UDA_NS_MGR_BASE + UDA_NS_MGR_QUERY, flags := flags,
    obj_cnt := 0, arg_cnt := 1, resv := 0,
    u := fun i => if i = 0 then arg_word offset UDA_IOVEC SIZEOF_UDA_IOVEC 0 else 0 }

/-- The user memory seen by `uda_ioctl` for the request buffer `ioctl` when
the stack memory behind the local `hdr` holds the words `stack`: the first
copy fills the 16 bytes of the header fields and leaves what lies behind them
as it is, the second copy delivers the whole buffer. -/
def ex_user_stack (ioctl : uda_ioctl) (stack : Nat → Nat) : uda_user :=
  { hdr := some { ioctl with u := stack }, kmalloc := true, data := some ioctl }

/-- The memory after session 7 created an object of type 9 in the empty
system (the new object lies at address 200). -/
def ex_created : uda_state :=
  (uda_pre_open ex_env ex_empty 7 1000 (ex_req_create 5)).1

/-- The memory `s` after `uda_put_obj` on the object at address 200. -/
def ex_put_200 (s : uda_state) : uda_state :=
  (uda_put_obj s 200).getD s

/-- The memory `s` after session 7 acquired a shared reference to {id 0,
type 9} in the name space at 1000. -/
def ex_get_shared (s : uda_state) : uda_state :=
  match uda_get_obj s 7 1000 ⟨0, 9, 0⟩ false with
  | some (s1, _) => s1
  | none => s

/-- The buffer of a destroying request whose slot 0 was mapped to the object
at address 200. -/
def ex_mapped_200 : uda_ioctl :=
  set_u_obj (ex_req 130 24 1 0 [id_word 0 9 0]) 0 200

/-- The memory after session 7 created an object (at address 200), the
creating request released it, two requests A and B of session 7 acquired
shared references to it, and B destroyed it with `uda_post_close` while A
still holds its reference. -/
def ex_destroyed_in_use : uda_state :=
  ((uda_post_close (ex_get_shared (ex_get_shared (ex_put_200 ex_created))) 1000
    ex_mapped_200).map (fun r => r.1)).getD ex_created

/-- The memory `ex_destroyed_in_use` after a request C of session 7 created
an object and `kzalloc` handed out the freed address 200 again. -/
def ex_recreated : uda_state :=
  (uda_pre_open ex_env ex_destroyed_in_use 7 1000 (ex_req_create 6)).1

/-- The memory `ex_recreated` after the requests C and A released their
references, both through `uda_put_obj` on address 200. -/
def ex_dangling_put : uda_state :=
  ex_put_200 (ex_put_200 ex_recreated)

/-- A creating request without object slots whose session-context argument
points to byte 4000, far behind the declared length 24; `w` is the 64-bit word
that the memory holds at that byte offset. -/
def ex_req_far (w : Nat) : uda_ioctl :=
  { ns_id := 1, length := 24, op := 129, flags := 0, obj_cnt := 0, arg_cnt := 1, resv := 0,
    u := fun i => if i = 0 then arg_word 4000 UDA_UCONTEXT 8 9 else if i = 498 then w else 0 }

/-- A creating request with 255 object slots, all naming {id 0, type 1}, and
the session-context argument (new type 9, context bytes 5) in slot 255. -/
def ex_req_255 : uda_ioctl :=
  { ns_id := 1, length := 2072, op := 129, flags := 0, obj_cnt := 255, arg_cnt := 1, resv := 0,
    u := fun i => if i < 255 then id_word 0 1 0 else if i = 255 then arg_word 2064 UDA_UCONTEXT 8 9
      else 5 }

/-! ## Lemmas on `upd` -/

@[simp]
theorem upd_same {β : Type} (a : Nat) (v : β) (f : Nat → β) : upd f a v a = v := by
  simp [upd]

theorem upd_noteq {β : Type} {a a1 : Nat} (h : a ≠ a1) (v : β) (f : Nat → β) :
    upd f a1 v a = f a := by
  simp [upd, h]

@[simp]
theorem upd_idem {β : Type} {a : Nat} {v w : β} (f : Nat → β) :
    upd (upd f a v) a w = upd f a w := by
  funext x
  by_cases h : x = a <;> simp [upd, h]

@[simp]
theorem upd_eq_self {β : Type} (a : Nat) (f : Nat → β) : upd f a (f a) = f := by
  funext x
  by_cases h : x = a
  · subst h; simp [upd]
  · simp [upd, h]

theorem upd_comm {β : Type} {a b : Nat} (h : a ≠ b) (v w : β) (f : Nat → β) :
    upd (upd f a v) b w = upd (upd f b w) a v := by
  funext x
  by_cases h1 : x = a
  · subst h1; simp [upd, h]
  · by_cases h2 : x = b
    · subst h2; simp [upd, h1]
    · simp [upd, h1, h2]

/-! ## Lemmas on the flag bits and on the object table -/

theorem testBit_NOT_UDA_EXCL (i : Nat) : NOT_UDA_EXCL.testBit i = decide (i < 16 ∧ i ≠ 2) := by
  by_cases h : i < 16
  · interval_cases i <;> decide
  · have h2 : (65531 : Nat) < 2 ^ i := by
      calc (65531 : Nat) < 2 ^ 16 := by norm_num
        _ ≤ 2 ^ i := Nat.pow_le_pow_right (by norm_num) (by omega)
    have := Nat.testBit_lt_two_pow h2
    simp [NOT_UDA_EXCL, UDA_EXCL] at *
    simp [this, h]

theorem testBit_UDA_EXCL (i : Nat) : UDA_EXCL.testBit i = decide (i = 2) := by
  have := @Nat.testBit_two_pow 2 i
  simpa [eq_comm] using this

theorem and_UDA_EXCL (f : Nat) : f &&& UDA_EXCL = (f.testBit 2).toNat * 4 := by
  simpa using Nat.and_two_pow f 2

theorem excl_set_clear (f : Nat) (h : f &&& UDA_EXCL = 0) (hf : f < 2 ^ 16) :
    (f ||| UDA_EXCL) &&& NOT_UDA_EXCL = f := by
  have h2 : f.testBit 2 = false := by
    rw [and_UDA_EXCL] at h
    cases hb : f.testBit 2 <;> simp_all
  apply Nat.eq_of_testBit_eq
  intro i
  rw [Nat.testBit_and, Nat.testBit_or, testBit_NOT_UDA_EXCL, testBit_UDA_EXCL]
  by_cases hi : i = 2
  · subst hi; simp [h2]
  · by_cases h16 : i < 16
    · simp [hi, h16]
    · have : f.testBit i = false := Nat.testBit_lt_two_pow (lt_of_lt_of_le hf (Nat.pow_le_pow_right (by norm_num) (by omega)))
      simp [hi, h16, this]

theorem excl_set_ne (f : Nat) : (f ||| UDA_EXCL) &&& UDA_EXCL ≠ 0 := by
  rw [and_UDA_EXCL, Nat.testBit_or, testBit_UDA_EXCL]
  simp

theorem excl_set_lt (f : Nat) (hf : f < 2 ^ 16) : f ||| UDA_EXCL < 2 ^ 16 :=
  Nat.or_lt_two_pow hf (by norm_num)


theorem id_word_calc (w iid ty : Nat) :
    0 % 2 ^ 16 * 2 ^ 48 + ((w / 2 ^ 32 * 2 ^ 32 + iid % 2 ^ 32) / 2 ^ 48 * 2 ^ 48 + ty % 2 ^ 16 * 2 ^ 32
      + (w / 2 ^ 32 * 2 ^ 32 + iid % 2 ^ 32) % 2 ^ 32) % 2 ^ 48
    = ty % 2 ^ 16 * 2 ^ 32 + iid % 2 ^ 32 := by
  norm_num
  omega

theorem uda_put_obj_eq (s : uda_state) (p : Nat) :
    uda_put_obj s p = (s.obj_mem p).map
      (fun o => { s with obj_mem := upd s.obj_mem p (some (obj_put o)) }) := by
  unfold uda_put_obj
  cases s.obj_mem p <;> rfl

theorem uda_unmap_obj_eq (s : uda_state) (ioctl : uda_ioctl) (i : Nat) :
    uda_unmap_obj s ioctl i = (s.obj_mem (ioctl.u i)).map
      (fun o => ({ s with obj_mem := upd s.obj_mem (ioctl.u i) (some (obj_put o)) },
                 { ioctl with u := upd ioctl.u i (obj_id_word o) })) := by
  unfold uda_unmap_obj
  rw [uda_put_obj_eq]
  simp only [u_obj]
  cases h : s.obj_mem (ioctl.u i) with
  | none => rfl
  | some o =>
    simp only [Option.map_some', set_obj_data, set_obj_type, set_instance_id, upd_same,
      upd_idem, obj_id_word]
    rw [id_word_calc]

theorem obj_put_get (o : uda_obj) (excl : Bool) (h : o.flags &&& UDA_EXCL = 0) (hf : o.flags < 2 ^ 16) :
    obj_put (obj_get o excl) = o := by
  cases excl
  · simp [obj_get, obj_put, h]
  · have := excl_set_ne o.flags
    simp [obj_get, obj_put, this, excl_set_clear o.flags h hf]

theorem word_of_id (w : Nat) (hw : w < 2 ^ 64) (hd : w / 2 ^ 48 % 2 ^ 16 = 0) :
    (w / 2 ^ 32 % 2 ^ 16) % 2 ^ 16 * 2 ^ 32 + (w % 2 ^ 32) % 2 ^ 32 = w := by
  norm_num at *
  omega

/-- What a successful `uda_get_obj` means. -/
theorem uda_get_obj_ok (s s1 : uda_state) (file ns : Nat) (id : uda_obj_id) (excl : Bool) (p : Nat)
    (h : uda_get_obj s file ns id excl = some (s1, .ok p)) :
    id.data = 0 ∧ idr_find (s.ns_mem ns).idr id.instance_id = some p ∧
    ∃ o, s.obj_mem p = some o ∧ o.obj_type = id.obj_type ∧ o.file = file ∧
      o.flags &&& UDA_EXCL = 0 ∧ (excl = true → o.use_cnt = 0) ∧
      s1 = { s with obj_mem := upd s.obj_mem p (some (obj_get o excl)) } := by
  unfold uda_get_obj at h
  split at h
  · simp at h
  · rename_i hd
    split at h
    · simp at h
    · rename_i q hq
      split at h
      · simp at h
      · rename_i o ho
        split at h
        · simp at h
        · rename_i h1
          split at h
          · simp at h
          · rename_i h2
            simp only [Option.some.injEq, Prod.mk.injEq, Except.ok.injEq] at h
            obtain ⟨hs, hp⟩ := h
            subst hp
            push_neg at h1 h2
            refine ⟨by simpa using hd, hq, o, ho, h1.1, h1.2, h2.1, ?_, ?_⟩
            · intro he; exact h2.2 he
            · rw [← hs]; rfl


theorem table_wf_get (s : uda_state) (ns p : Nat) (o : uda_obj) (excl : Bool)
    (hwf : table_wf s ns) (ho : s.obj_mem p = some o) (hf : o.flags < 2 ^ 16) :
    table_wf { s with obj_mem := upd s.obj_mem p (some (obj_get o excl)) } ns := by
  intro id q hq
  obtain ⟨o1, h1, h2, h3⟩ := hwf id q hq
  by_cases hqp : q = p
  · subst hqp
    rw [ho] at h1
    cases h1
    refine ⟨obj_get o excl, by simp, ?_, ?_⟩
    · cases excl <;> simpa [obj_get] using h2
    · cases excl
      · simpa [obj_get] using hf
      · simpa [obj_get] using excl_set_lt o.flags hf
  · exact ⟨o1, by simp [upd_noteq hqp, h1], h2, h3⟩

/-- Unmapping a slot right after it was mapped gives back the memory and the
request as they were. -/
theorem uda_unmap_after_get (s s1 : uda_state) (file ns : Nat) (ioctl : uda_ioctl) (i : Nat)
    (excl : Bool) (p : Nat) (hwf : table_wf s ns) (hu : ioctl.u i < 2 ^ 64)
    (h : uda_get_obj s file ns (u_obj_id ioctl i) excl = some (s1, .ok p)) :
    uda_unmap_obj s1 (set_u_obj ioctl i p) i = some (s, ioctl) ∧ table_wf s1 ns := by
  obtain ⟨hd, hfind, o, ho, hty, -, hex, -, hs1⟩ := uda_get_obj_ok s s1 file ns _ excl p h
  obtain ⟨o1, ho1, hid, hfl⟩ := hwf _ p hfind
  rw [ho] at ho1
  cases ho1
  constructor
  · rw [uda_unmap_obj_eq, hs1]
    have e1 : upd ioctl.u i p i = p := upd_same _ _ _
    have e2 : upd s.obj_mem p (some (obj_get o excl)) p = some (obj_get o excl) :=
      upd_same _ _ _
    simp only [set_u_obj]
    rw [e1]
    rw [e2]
    simp only [Option.map_some', upd_idem,
      obj_put_get o excl hex hfl]
    have hw : obj_id_word (obj_get o excl) = ioctl.u i := by
      have e3 : obj_id_word (obj_get o excl) = obj_id_word o := by
        cases excl <;> rfl
      rw [e3]
      simp only [obj_id_word, hid, hty, u_obj_id]
      simp only [u_obj_id] at hd
      exact word_of_id _ hu hd
    rw [hw, upd_eq_self, ← ho, upd_eq_self]
  · rw [hs1]
    exact table_wf_get s ns p o excl hwf ho hfl

theorem uda_map_objs_unwind_loop (file ns : Nat) (excl : Bool) :
    ∀ (k i : Nat) (s : uda_state) (ioctl : uda_ioctl) (sj : uda_state) (ioj : uda_ioctl),
      table_wf s ns → (∀ t, i ≤ t → t < i + k → ioctl.u t < 2 ^ 64) →
      uda_map_objs_loop file ns excl k i s ioctl = some (sj, ioj, none) →
      uda_map_objs_unwind (i + k) sj ioj = uda_map_objs_unwind i s ioctl := by
  intro k
  induction k with
  | zero =>
    intro i s ioctl sj ioj _ _ h
    simp only [uda_map_objs_loop, Option.some.injEq, Prod.mk.injEq, and_true] at h
    rw [h.1, h.2]
    rfl
  | succ k ih =>
    intro i s ioctl sj ioj hwf hu h
    rw [uda_map_objs_loop] at h
    split at h
    · simp at h
    · simp at h
    · rename_i s1 p hget
      obtain ⟨hun, hwf1⟩ :=
        uda_unmap_after_get s s1 file ns ioctl i _ p hwf (hu i le_rfl (by omega)) hget
      have hu1 : ∀ t, i + 1 ≤ t → t < i + 1 + k → (set_u_obj ioctl i p).u t < 2 ^ 64 := by
        intro t ht ht2
        have : t ≠ i := by omega
        simp only [set_u_obj, upd_noteq this]
        exact hu t (by omega) (by omega)
      have := ih (i + 1) s1 (set_u_obj ioctl i p) sj ioj hwf1 hu1 h
      rw [show i + (k + 1) = i + 1 + k by omega, this]
      simp only [uda_map_objs_unwind, hun]


/-- A failing `uda_get_obj` leaves the memory alone. -/
theorem uda_get_obj_error_state (s s1 : uda_state) (file ns : Nat) (id : uda_obj_id) (excl : Bool)
    (e : Int) (h : uda_get_obj s file ns id excl = some (s1, .error e)) : s1 = s := by
  unfold uda_get_obj at h
  repeat' split at h
  all_goals simp at h
  all_goals exact h.1.symm

theorem mem_of_idr_find (idr : List (Nat × Nat)) (id p : Nat) (h : idr_find idr id = some p) :
    (id, p) ∈ idr := by
  induction idr with
  | nil => simp [idr_find, List.lookup] at h
  | cons e es ih =>
    obtain ⟨k, v⟩ := e
    unfold idr_find at h ih
    rw [List.lookup_cons] at h
    by_cases hk : id = k
    · subst hk
      simp at h
      simp [h]
    · have : (id == k) = false := by simpa using hk
      rw [this] at h
      exact List.mem_cons_of_mem _ (ih h)

theorem table_wf_of_check (s : uda_state) (ns : Nat) (h : table_wf_check s ns = true) :
    table_wf s ns := by
  intro id p hf
  have hm := mem_of_idr_find _ _ _ hf
  unfold table_wf_check at h
  rw [List.all_eq_true] at h
  have := h _ hm
  simp only at this
  split at this
  · rename_i o ho
    simp only [decide_eq_true_eq] at this
    exact ⟨o, ho, this.1, this.2⟩
  · simp at this


theorem idr_find_remove_self (idr : List (Nat × Nat)) (k : Nat) :
    idr_find (idr_remove idr k) k = none := by
  induction idr with
  | nil => rfl
  | cons e es ih =>
    obtain ⟨a, b⟩ := e
    unfold idr_find idr_remove at *
    by_cases h : a = k
    · subst h
      simpa [List.filter_cons] using ih
    · have h1 : (a != k) = true := by simpa using h
      have h2 : (k == a) = false := by simpa using fun h3 : k = a => h h3.symm
      rw [List.filter_cons]
      simp only [h1, if_true]
      rw [List.lookup_cons, h2]
      exact ih

theorem idr_find_cons (idr : List (Nat × Nat)) (id p k : Nat) :
    idr_find ((id, p) :: idr) k = if k = id then some p else idr_find idr k := by
  unfold idr_find
  rw [List.lookup_cons]
  by_cases h : k = id
  · subst h; simp
  · have : (k == id) = false := by simpa using h
    rw [this, if_neg h]

/-- The two outcomes of `idr_alloc` when the allocation inside does not fail. -/
theorem idr_alloc_cases (idr : List (Nat × Nat)) (p : Nat) :
    (∃ id, idr_first_free idr = some id ∧ (id : Int) ≤ INT_MAX ∧
      idr_alloc none idr p = ((id : Int), (id, p) :: idr)) ∨
    idr_alloc none idr p = (-ENOSPC, idr) := by
  unfold idr_alloc
  cases h : idr_first_free idr with
  | none => right; rfl
  | some id =>
    by_cases h2 : (id : Int) ≤ INT_MAX
    · left; exact ⟨id, rfl, h2, by simp [h2]⟩
    · right; simp [h2]

theorem to_u32_of_nat (id : Nat) (h : (id : Int) ≤ INT_MAX) : to_u32 (id : Int) = id := by
  unfold to_u32
  have : (id : Int) % 2 ^ 32 = id := by
    have h1 : (id : Int) ≤ 2147483647 := h
    apply Int.emod_eq_of_lt
    · omega
    · omega
  rw [this]; simp


theorem uda_check_arg_eq_zero (ioctl : uda_ioctl) (index attr_id length : Nat) :
    uda_check_arg ioctl index attr_id length = 0 ↔
      (u_arg ioctl index).attr_id = attr_id ∧ (u_arg ioctl index).length = length := by
  unfold uda_check_arg
  by_cases h : (u_arg ioctl index).attr_id ≠ attr_id ∨ (u_arg ioctl index).length ≠ length
  · rw [if_pos h]
    simp only [EINVAL, Int.reduceNeg, Int.reduceEq, false_iff]
    intro h2
    rcases h with h | h
    · exact h h2.1
    · exact h h2.2
  · rw [if_neg h]
    push_neg at h
    simp [h]

/-- The result of `uda_pre_open` once its argument test passes and `kzalloc`
returns memory. -/
theorem uda_pre_open_eq (env : uda_env) (s : uda_state) (file ns : Nat) (ioctl : uda_ioctl) (p : Nat)
    (h1 : ioctl.arg_cnt ≠ 0) (h2 : uda_check_arg ioctl ioctl.obj_cnt UDA_UCONTEXT 8 = 0)
    (h3 : env.kzalloc = some p) :
    uda_pre_open env s file ns ioctl
      = (pre_open_state env s file ns ioctl p, pre_open_ioctl ioctl p, 0) := by
  unfold uda_pre_open
  rw [if_neg h1, h2]
  simp only [ne_eq, not_true_eq_false, if_false, h3]
  have hneg : ¬ ((to_u32 (idr_alloc env.idr_fail (s.ns_mem ns).idr p).1 : Int) < 0) := by
    have := Int.natCast_nonneg (to_u32 (idr_alloc env.idr_fail (s.ns_mem ns).idr p).1)
    omega
  have hpos : (0 : Int) ≤ (to_u32 (idr_alloc env.idr_fail (s.ns_mem ns).idr p).1 : Int) :=
    Int.natCast_nonneg _
  rw [if_neg hneg, if_pos hpos]
  rfl

/-- What a return value 0 of `uda_pre_open` means. -/
theorem uda_pre_open_ok (env : uda_env) (s : uda_state) (file ns : Nat) (ioctl : uda_ioctl)
    (s2 : uda_state) (io2 : uda_ioctl) (h : uda_pre_open env s file ns ioctl = (s2, io2, 0)) :
    ioctl.arg_cnt ≠ 0 ∧ uda_check_arg ioctl ioctl.obj_cnt UDA_UCONTEXT 8 = 0 ∧
    ∃ p, env.kzalloc = some p ∧ s2 = pre_open_state env s file ns ioctl p ∧
      io2 = pre_open_ioctl ioctl p := by
  by_cases h1 : ioctl.arg_cnt = 0
  · unfold uda_pre_open at h
    rw [if_pos h1] at h
    simp at h
  · by_cases h2 : uda_check_arg ioctl ioctl.obj_cnt UDA_UCONTEXT 8 = 0
    · cases h3 : env.kzalloc with
      | none =>
        unfold uda_pre_open at h
        rw [if_neg h1, h2] at h
        simp [h3] at h
      | some p =>
        rw [uda_pre_open_eq env s file ns ioctl p h1 h2 h3] at h
        simp only [Prod.mk.injEq, and_true] at h
        exact ⟨h1, h2, p, rfl, h.1.symm, h.2.symm⟩
    · unfold uda_pre_open at h
      rw [if_neg h1, if_pos h2] at h
      simp only [Prod.mk.injEq] at h
      exact absurd h.2.2 h2


theorem obj_put_fields (o : uda_obj) :
    (obj_put o).ucontext = o.ucontext ∧ (obj_put o).kcontext = o.kcontext ∧
    (obj_put o).file = o.file ∧ (obj_put o).instance_id = o.instance_id ∧
    (obj_put o).obj_type = o.obj_type ∧ (obj_put o).use_cnt = o.use_cnt - 1 := by
  unfold obj_put
  split <;> exact ⟨rfl, rfl, rfl, rfl, rfl, rfl⟩

theorem obj_put_excl (o : uda_obj) (h : o.flags = UDA_EXCL) : (obj_put o).flags = 0 := by
  unfold obj_put
  rw [h]
  rfl


theorem uda_unmap_objs_loop_succ (k i : Nat) (s : uda_state) (ioctl : uda_ioctl) :
    uda_unmap_objs_loop (k + 1) i s ioctl
      = (uda_unmap_obj s ioctl i).bind (fun r => uda_unmap_objs_loop k (i + 1) r.1 r.2) := by
  rw [uda_unmap_objs_loop]
  cases uda_unmap_obj s ioctl i with
  | none => rfl
  | some r => rfl

theorem uda_map_objs_unwind_succ (i : Nat) (s : uda_state) (ioctl : uda_ioctl) :
    uda_map_objs_unwind (i + 1) s ioctl
      = (uda_unmap_obj s ioctl i).bind (fun r => uda_map_objs_unwind i r.1 r.2) := by
  rw [uda_map_objs_unwind]
  cases uda_unmap_obj s ioctl i with
  | none => rfl
  | some r => rfl

/-- Two calls of `uda_unmap_obj` on different slots commute. -/
theorem uda_unmap_obj_comm (s : uda_state) (ioctl : uda_ioctl) (a b : Nat) (hab : a ≠ b) :
    (uda_unmap_obj s ioctl a).bind (fun r => uda_unmap_obj r.1 r.2 b)
      = (uda_unmap_obj s ioctl b).bind (fun r => uda_unmap_obj r.1 r.2 a) := by
  simp only [uda_unmap_obj_eq]
  have hba : b ≠ a := fun h => hab h.symm
  cases ha : s.obj_mem (ioctl.u a) with
  | none =>
    cases hb : s.obj_mem (ioctl.u b) with
    | none => simp
    | some ob =>
      by_cases hp : ioctl.u a = ioctl.u b
      · rw [hp] at ha; rw [ha] at hb; cases hb
      · simp [upd_noteq hab, upd_noteq hp, ha]
  | some oa =>
    cases hb : s.obj_mem (ioctl.u b) with
    | none =>
      by_cases hp : ioctl.u b = ioctl.u a
      · rw [hp] at hb; rw [ha] at hb; cases hb
      · simp [upd_noteq hba, upd_noteq hp, hb]
    | some ob =>
      by_cases hp : ioctl.u a = ioctl.u b
      · rw [hp] at ha
        rw [ha] at hb
        cases hb
        have e1 : obj_id_word (obj_put oa) = obj_id_word oa := by
          have := obj_put_fields oa
          simp only [obj_id_word, this.2.2.2.1, this.2.2.2.2.1]
        simp [upd_noteq hab, upd_noteq hba, hp, e1, upd_comm hab]
      · have hp2 : ioctl.u b ≠ ioctl.u a := fun h => hp h.symm
        simp [upd_noteq hab, upd_noteq hba, upd_noteq hp, upd_noteq hp2, ha, hb,
          upd_comm hab, upd_comm hp]

theorem uda_unmap_objs_loop_comm (c : Nat) :
    ∀ (k i : Nat) (s : uda_state) (ioctl : uda_ioctl), (c < i ∨ i + k ≤ c) →
      (uda_unmap_obj s ioctl c).bind (fun r => uda_unmap_objs_loop k i r.1 r.2)
        = (uda_unmap_objs_loop k i s ioctl).bind (fun r => uda_unmap_obj r.1 r.2 c) := by
  intro k
  induction k with
  | zero =>
    intro i s ioctl _
    simp only [uda_unmap_objs_loop, Option.some_bind]
    cases uda_unmap_obj s ioctl c <;> rfl
  | succ k ih =>
    intro i s ioctl hc
    have hci : c ≠ i := by omega
    simp only [uda_unmap_objs_loop_succ]
    rw [← Option.bind_assoc, uda_unmap_obj_comm s ioctl c i hci, Option.bind_assoc, Option.bind_assoc]
    congr 1
    funext r
    exact ih (i + 1) r.1 r.2 (by omega)

theorem uda_unmap_objs_loop_snoc :
    ∀ (k i : Nat) (s : uda_state) (ioctl : uda_ioctl),
      uda_unmap_objs_loop (k + 1) i s ioctl
        = (uda_unmap_objs_loop k i s ioctl).bind (fun r => uda_unmap_obj r.1 r.2 (i + k)) := by
  intro k
  induction k with
  | zero =>
    intro i s ioctl
    simp only [uda_unmap_objs_loop_succ, uda_unmap_objs_loop, Option.some_bind, Nat.add_zero]
    cases uda_unmap_obj s ioctl i <;> rfl
  | succ k ih =>
    intro i s ioctl
    rw [uda_unmap_objs_loop_succ, uda_unmap_objs_loop_succ k, Option.bind_assoc]
    congr 1
    funext r
    rw [ih (i + 1) r.1 r.2, show i + 1 + k = i + (k + 1) by omega]

/-- Unmapping the slots 0..n-1 in ascending order (`uda_unmap_objs`) has the
same result as unmapping them in descending order (the `err` path of
`uda_map_objs`). -/
theorem uda_unmap_objs_loop_eq_unwind :
    ∀ (n : Nat) (s : uda_state) (ioctl : uda_ioctl),
      uda_unmap_objs_loop n 0 s ioctl = uda_map_objs_unwind n s ioctl := by
  intro n
  induction n with
  | zero => intro s ioctl; rfl
  | succ n ih =>
    intro s ioctl
    rw [uda_unmap_objs_loop_snoc, Nat.zero_add, ← uda_unmap_objs_loop_comm n n 0 s ioctl (by omega),
      uda_map_objs_unwind_succ]
    congr 1
    funext r
    exact ih r.1 r.2


/-- The error values of `uda_get_obj` are not 0. -/
theorem uda_get_obj_error_ne_zero (s s1 : uda_state) (file ns : Nat) (id : uda_obj_id) (excl : Bool)
    (e : Int) (h : uda_get_obj s file ns id excl = some (s1, .error e)) : e ≠ 0 := by
  unfold uda_get_obj at h
  repeat' split at h
  all_goals simp at h
  all_goals (rw [← h.2]; decide)

theorem uda_map_objs_loop_error_ne_zero (file ns : Nat) (excl : Bool) :
    ∀ (k i : Nat) (s : uda_state) (ioctl : uda_ioctl) (s1 : uda_state) (io1 : uda_ioctl) (j : Nat)
      (e : Int), uda_map_objs_loop file ns excl k i s ioctl = some (s1, io1, some (j, e)) → e ≠ 0 := by
  intro k
  induction k with
  | zero => intro i s ioctl s1 io1 j e h; simp [uda_map_objs_loop] at h
  | succ k ih =>
    intro i s ioctl s1 io1 j e h
    rw [uda_map_objs_loop] at h
    split at h
    · simp at h
    · rename_i s2 e2 hget
      simp only [Option.some.injEq, Prod.mk.injEq] at h
      have := uda_get_obj_error_ne_zero _ _ _ _ _ _ _ hget
      rw [← h.2.2.2]
      exact this
    · exact ih _ _ _ _ _ _ _ h

theorem uda_map_objs_loop_obj_cnt (file ns : Nat) (excl : Bool) :
    ∀ (k i : Nat) (s : uda_state) (ioctl : uda_ioctl) (s1 : uda_state) (io1 : uda_ioctl)
      (r : Option (Nat × Int)), uda_map_objs_loop file ns excl k i s ioctl = some (s1, io1, r) →
      io1.obj_cnt = ioctl.obj_cnt ∧ io1.arg_cnt = ioctl.arg_cnt ∧ io1.length = ioctl.length ∧
      ∀ t, i + k ≤ t → io1.u t = ioctl.u t := by
  intro k
  induction k with
  | zero =>
    intro i s ioctl s1 io1 r h
    simp only [uda_map_objs_loop, Option.some.injEq, Prod.mk.injEq] at h
    rw [← h.2.1]
    exact ⟨rfl, rfl, rfl, fun _ _ => rfl⟩
  | succ k ih =>
    intro i s ioctl s1 io1 r h
    rw [uda_map_objs_loop] at h
    split at h
    · simp at h
    · simp only [Option.some.injEq, Prod.mk.injEq] at h
      rw [← h.2.1]
      exact ⟨rfl, rfl, rfl, fun _ _ => rfl⟩
    · rename_i s2 p hget
      obtain ⟨h1, h2, h3, h4⟩ := ih _ _ _ _ _ _ h
      refine ⟨h1, h2, h3, fun t ht => ?_⟩
      rw [h4 t (by omega)]
      have : t ≠ i := by omega
      simp [set_u_obj, upd_noteq this]

/-- A return value 0 of `uda_map_objs` means that the loop ran to its end. -/
theorem uda_map_objs_ok (s : uda_state) (file ns : Nat) (ioctl : uda_ioctl) (excl : Bool)
    (s1 : uda_state) (io1 : uda_ioctl) (h : uda_map_objs s file ns ioctl excl = some (s1, io1, 0)) :
    uda_map_objs_loop file ns excl ioctl.obj_cnt 0 s ioctl = some (s1, io1, none) := by
  unfold uda_map_objs at h
  split at h
  · simp at h
  · rename_i s2 io2 hl
    simp only [Option.some.injEq, Prod.mk.injEq, and_true] at h
    rw [hl, h.1, h.2]
  · rename_i s2 io2 i e hl
    have he := uda_map_objs_loop_error_ne_zero _ _ _ _ _ _ _ _ _ _ _ hl
    split at h
    · simp at h
    · simp only [Option.some.injEq, Prod.mk.injEq] at h
      exact absurd h.2.2 he

/-- After a successful `uda_map_objs`, `uda_unmap_objs` gives back the memory
and the request as they were before the mapping. -/
theorem uda_unmap_objs_after_map (s : uda_state) (file ns : Nat) (ioctl : uda_ioctl) (excl : Bool)
    (s1 : uda_state) (io1 : uda_ioctl) (hwf : table_wf s ns)
    (hu : ∀ t, t < ioctl.obj_cnt → ioctl.u t < 2 ^ 64)
    (h : uda_map_objs s file ns ioctl excl = some (s1, io1, 0)) :
    uda_unmap_objs s1 io1 = some (s, ioctl) := by
  have hl := uda_map_objs_ok s file ns ioctl excl s1 io1 h
  have hc := (uda_map_objs_loop_obj_cnt file ns excl _ _ _ _ _ _ _ hl).1
  have hun := uda_map_objs_unwind_loop file ns excl ioctl.obj_cnt 0 s ioctl s1 io1 hwf
    (fun t _ ht => hu t (by omega)) hl
  unfold uda_unmap_objs
  rw [uda_unmap_objs_loop_eq_unwind, hc]
  simp only [Nat.zero_add] at hun
  rw [hun]
  rfl


theorem key_mem_of_idr_find_isSome (idr : List (Nat × Nat)) (i : Nat)
    (h : (idr_find idr i).isSome = true) : i ∈ idr.map Prod.fst := by
  cases hf : idr_find idr i with
  | none => rw [hf] at h; simp at h
  | some p =>
    have := mem_of_idr_find idr i p hf
    exact List.mem_map.mpr ⟨(i, p), this, rfl⟩

/-- The idr always has a free id among 0..length. -/
theorem idr_first_free_some (idr : List (Nat × Nat)) :
    ∃ id, idr_first_free idr = some id ∧ id ≤ idr.length ∧ idr_find idr id = none := by
  unfold idr_first_free
  cases hf : (List.range (idr.length + 1)).find? (fun i => (idr_find idr i).isNone) with
  | none =>
    exfalso
    rw [List.find?_eq_none] at hf
    have hsub : List.range (idr.length + 1) ⊆ idr.map Prod.fst := by
      intro i hi
      have := hf i hi
      apply key_mem_of_idr_find_isSome
      cases h : idr_find idr i with
      | none => rw [h] at this; simp at this
      | some p => rfl
    have hlen := ((List.nodup_range (idr.length + 1)).subperm hsub).length_le
    simp at hlen
  | some id =>
    have h1 := List.find?_some hf
    have h2 := List.mem_of_find?_eq_some hf
    refine ⟨id, rfl, ?_, ?_⟩
    · have := List.mem_range.mp h2
      omega
    · cases h : idr_find idr id with
      | none => rfl
      | some p => rw [h] at h1; simp at h1

/-- The outcome of `idr_alloc` when the allocation inside does not fail and the
idr holds fewer than 2 ^ 31 entries: a fresh id. -/
theorem idr_alloc_ok (idr : List (Nat × Nat)) (p : Nat) (hlen : idr.length < 2 ^ 31) :
    ∃ id, idr_find idr id = none ∧ (id : Int) ≤ INT_MAX ∧
      idr_alloc none idr p = ((id : Int), (id, p) :: idr) := by
  obtain ⟨id, h1, h2, h3⟩ := idr_first_free_some idr
  have hle : (id : Int) ≤ INT_MAX := by
    have : id < 2 ^ 31 := by omega
    simp only [INT_MAX]
    norm_num at this
    omega
  refine ⟨id, h3, hle, ?_⟩
  unfold idr_alloc
  simp only [h1, hle, if_true]


/-- What `uda_get_obj` does with an object it finds under the id, with the
requested type and session. -/
theorem uda_get_obj_found (s : uda_state) (file ns : Nat) (id : uda_obj_id) (excl : Bool)
    (p : Nat) (o : uda_obj)
    (hd : id.data = 0) (hfind : idr_find (s.ns_mem ns).idr id.instance_id = some p)
    (ho : s.obj_mem p = some o) (hty : o.obj_type = id.obj_type) (hfile : o.file = file) :
    ((∃ s1, uda_get_obj s file ns id excl = some (s1, .error (-EBUSY))) ↔
      (o.flags &&& UDA_EXCL ≠ 0 ∨ (excl = true ∧ o.use_cnt ≠ 0))) ∧
    ((o.flags &&& UDA_EXCL ≠ 0 ∨ (excl = true ∧ o.use_cnt ≠ 0)) →
      uda_get_obj s file ns id excl = some (s, .error (-EBUSY))) ∧
    (¬ (o.flags &&& UDA_EXCL ≠ 0 ∨ (excl = true ∧ o.use_cnt ≠ 0)) →
      ∃ s1 o1, uda_get_obj s file ns id excl = some (s1, .ok p) ∧
        s1.obj_mem p = some o1 ∧
        o1.use_cnt = o.use_cnt + 1 ∧
        (o1.flags &&& UDA_EXCL ≠ 0 ↔ excl = true) ∧
        o1.flags = (if excl then o.flags ||| UDA_EXCL else o.flags) ∧
        (o1.ucontext, o1.kcontext, o1.file, o1.instance_id, o1.obj_type)
          = (o.ucontext, o.kcontext, o.file, o.instance_id, o.obj_type) ∧
        (∀ q, q ≠ p → s1.obj_mem q = s.obj_mem q) ∧
        s1.ns_mem = s.ns_mem ∧ s1.obj_list = s.obj_list ∧
        s1.ns_array = s.ns_array ∧ s1.max_ns = s.max_ns) := by
  have hd1 : ¬ (id.data ≠ 0) := by simp [hd]
  have hty1 : ¬ (o.obj_type ≠ id.obj_type ∨ o.file ≠ file) := by simp [hty, hfile]
  by_cases hb : o.flags &&& UDA_EXCL ≠ 0 ∨ (excl = true ∧ o.use_cnt ≠ 0)
  · have hres : uda_get_obj s file ns id excl = some (s, .error (-EBUSY)) := by
      unfold uda_get_obj
      rw [if_neg hd1, hfind]
      simp only [ho]
      rw [if_neg hty1, if_pos hb]
    exact ⟨⟨fun _ => hb, fun _ => ⟨s, hres⟩⟩, fun _ => hres, fun h => absurd hb h⟩
  · have hres : uda_get_obj s file ns id excl
        = some ({ s with obj_mem := upd s.obj_mem p (some (obj_get o excl)) }, .ok p) := by
      unfold uda_get_obj
      rw [if_neg hd1, hfind]
      simp only [ho]
      rw [if_neg hty1, if_neg hb]
      rfl
    refine ⟨⟨fun ⟨s1, h1⟩ => ?_, fun h => absurd h hb⟩, fun h => absurd h hb, fun _ => ?_⟩
    · rw [hres] at h1
      simp at h1
    · push_neg at hb
      refine ⟨_, obj_get o excl, hres, by simp, ?_, ?_, ?_, ?_, ?_, rfl, rfl, rfl, rfl⟩
      · cases excl <;> rfl
      · cases excl
        · simpa [obj_get] using hb.1
        · simpa [obj_get] using excl_set_ne o.flags
      · cases excl <;> rfl
      · cases excl <;> rfl
      · intro q hq
        simp [upd_noteq hq]


theorem uda_check_args_eq_zero (ioctl : uda_ioctl) :
    uda_check_args ioctl = 0 ↔
      ∀ i, i < ioctl.arg_cnt →
        (u_arg ioctl (i + ioctl.obj_cnt)).offset + (u_arg ioctl (i + ioctl.obj_cnt)).length
          ≤ ioctl.length := by
  unfold uda_check_args
  split
  · rename_i h
    rw [List.any_eq_true] at h
    obtain ⟨i, hi, hgt⟩ := h
    simp only [decide_eq_true_eq] at hgt
    constructor
    · intro h0; exact absurd h0 (by decide)
    · intro hall
      have := hall i (List.mem_range.mp hi)
      omega
  · rename_i h
    constructor
    · intro _ i hi
      by_contra hc
      apply h
      rw [List.any_eq_true]
      exact ⟨i, List.mem_range.mpr hi, by simp only [decide_eq_true_eq]; omega⟩
    · intro _; rfl

/-- `uda_check_args` reads the declared length, the two counts and the words
from `obj_cnt` on. -/
theorem uda_check_args_congr (io1 io2 : uda_ioctl) (hl : io1.length = io2.length)
    (ho : io1.obj_cnt = io2.obj_cnt) (ha : io1.arg_cnt = io2.arg_cnt)
    (hu : ∀ t, io2.obj_cnt ≤ t → io1.u t = io2.u t) :
    uda_check_args io1 = uda_check_args io2 := by
  unfold uda_check_args
  rw [ha, ho, hl]
  have : ∀ i, u_arg io1 (i + io2.obj_cnt) = u_arg io2 (i + io2.obj_cnt) := by
    intro i
    simp only [u_arg, hu (i + io2.obj_cnt) (by omega)]
  simp only [this]

theorem uda_get_obj_mismatch_enoent_aux (s : uda_state) (file ns : Nat) (id : uda_obj_id)
    (excl : Bool) (hd : id.data = 0) (hfind : idr_find (s.ns_mem ns).idr id.instance_id = none) :
    uda_get_obj s file ns id excl = some (s, .error (-ENOENT)) := by
  have hd1 : ¬ (id.data ≠ 0) := by simp [hd]
  unfold uda_get_obj
  rw [if_neg hd1, hfind]

/-- The result of `uda_pre_common` for a request without object slots under a
creating descriptor, when the allocations succeed. -/
theorem uda_pre_common_create (env : uda_env) (s : uda_state) (file ns : Nat) (ioctl : uda_ioctl)
    (desc : uda_ioctl_desc) (p : Nat)
    (hobj : ioctl.obj_cnt = 0) (harg : 1 ≤ ioctl.arg_cnt) (harg2 : ioctl.arg_cnt < 256)
    (hattr : (u_arg ioctl 0).attr_id = UDA_UCONTEXT) (hlen : (u_arg ioctl 0).length = 8)
    (hrest : ∀ i, 1 ≤ i → i < ioctl.arg_cnt →
      (u_arg ioctl i).offset + (u_arg ioctl i).length ≤ ioctl.length)
    (hopen : desc.flags &&& UDA_OPEN ≠ 0) (hnc : desc.flags &&& UDA_CLOSED = 0)
    (hns : (s.ns_mem ns).flags &&& UDA_CLOSED = 0) (hkz : env.kzalloc = some p) :
    uda_pre_common env s file ns ioctl desc
      = some (pre_open_state env s file ns ioctl p, pre_open_ioctl ioctl p, 0) := by
  have hpo := uda_pre_open_eq env s file ns ioctl p (by omega)
    ((uda_check_arg_eq_zero _ _ _ _).mpr (by rw [hobj]; exact ⟨hattr, hlen⟩)) hkz
  have hchk : uda_check_args (pre_open_ioctl ioctl p) = 0 := by
    rw [uda_check_args_eq_zero]
    intro i hi
    have h1 : (pre_open_ioctl ioctl p).arg_cnt = ioctl.arg_cnt - 1 := by
      simp only [pre_open_ioctl]; omega
    have h2 : (pre_open_ioctl ioctl p).obj_cnt = 1 := by
      simp only [pre_open_ioctl, hobj]
    have h3 : u_arg (pre_open_ioctl ioctl p) (i + 1) = u_arg ioctl (i + 1) := by
      have : i + 1 ≠ ioctl.obj_cnt := by omega
      simp only [u_arg, pre_open_ioctl, upd_noteq this]
    rw [h2, h3]
    rw [h1] at hi
    exact hrest (i + 1) (by omega) (by omega)
  unfold uda_pre_common uda_pre_common_gate uda_map_objs
  simp only [hnc, ne_eq, not_true_eq_false, if_false, hns, hobj, uda_map_objs_loop]
  simp only [hopen, not_false_eq_true, if_true, hpo, hchk]
  simp

/-- The result of `uda_unmap_objs` on the buffer `uda_pre_open` leaves for a
request without object slots: the new object is released and its identifier
is written into slot 0. -/
theorem uda_unmap_objs_created (env : uda_env) (s : uda_state) (file ns : Nat) (ioctl : uda_ioctl)
    (p : Nat) (hobj : ioctl.obj_cnt = 0) :
    uda_unmap_objs (pre_open_state env s file ns ioctl p) (pre_open_ioctl ioctl p)
      = some ({ pre_open_state env s file ns ioctl p with
                obj_mem := upd (pre_open_state env s file ns ioctl p).obj_mem p
                  (some (obj_put (pre_open_obj env s file ns ioctl p))) },
              { pre_open_ioctl ioctl p with
                u := upd (pre_open_ioctl ioctl p).u 0 (obj_id_word (pre_open_obj env s file ns ioctl p)) }) := by
  have h1 : (pre_open_ioctl ioctl p).obj_cnt = 1 := by simp only [pre_open_ioctl, hobj]
  have h2 : (pre_open_ioctl ioctl p).u 0 = p := by simp [pre_open_ioctl, hobj]
  have h3 : (pre_open_state env s file ns ioctl p).obj_mem p
      = some (pre_open_obj env s file ns ioctl p) := by simp [pre_open_state]
  unfold uda_unmap_objs
  rw [h1, uda_unmap_objs_loop_succ, uda_unmap_obj_eq, h2, h3]
  rfl

/-- A destroying request on a free object of the caller: `uda_pre_common`
maps it and returns 0, `uda_post_common` removes it from the idr, from the
session list and from memory. -/
theorem uda_close_free_object (env : uda_env) (s : uda_state) (file ns : Nat) (ioc : uda_ioctl)
    (descc : uda_ioctl_desc) (p : Nat) (o : uda_obj)
    (hcl : descc.flags &&& UDA_CLOSED ≠ 0) (hco : descc.flags &&& UDA_OPEN = 0)
    (hc1 : ioc.obj_cnt = 1) (hd : (u_obj_id ioc 0).data = 0)
    (hfind : idr_find (s.ns_mem ns).idr (u_obj_id ioc 0).instance_id = some p)
    (ho : s.obj_mem p = some o) (hty : o.obj_type = (u_obj_id ioc 0).obj_type)
    (hfile : o.file = file) (hfree : o.flags &&& UDA_EXCL = 0) (huse : o.use_cnt = 0)
    (hargs : uda_check_args ioc = 0) :
    ∃ s3, uda_pre_common env s file ns ioc descc = some (s3, set_u_obj ioc 0 p, 0) ∧
      uda_post_common s3 ns (set_u_obj ioc 0 p) descc
        = some ({ s with
                  ns_mem := upd s.ns_mem ns
                    { s.ns_mem ns with idr := idr_remove (s.ns_mem ns).idr o.instance_id },
                  obj_list := list_del s.obj_list p,
                  obj_mem := upd s.obj_mem p none },
                set_u_obj (set_u_obj ioc 0 p) 0 0) := by
  have hnb : ¬ (o.flags &&& UDA_EXCL ≠ 0 ∨
      ((decide (descc.flags &&& UDA_EXCL ≠ 0) && (0 == 0)) = true ∧ o.use_cnt ≠ 0)) := by
    simp [hfree, huse]
  obtain ⟨s3, o3, hget, hm3, -, -, -, hid3, -, hns3, hl3, -, -⟩ :=
    (uda_get_obj_found s file ns (u_obj_id ioc 0) (decide (descc.flags &&& UDA_EXCL ≠ 0) && (0 == 0))
      p o hd hfind ho hty hfile).2.2 hnb
  have hs3 := (uda_get_obj_ok s s3 file ns _ _ p hget).2.2
  obtain ⟨o', ho', -, -, -, -, hs3⟩ := hs3
  rw [ho] at ho'
  cases ho'
  have hchk : uda_check_args (set_u_obj ioc 0 p) = 0 := by
    rw [uda_check_args_congr (set_u_obj ioc 0 p) ioc rfl rfl rfl, hargs]
    intro t ht
    have : t ≠ 0 := by omega
    simp [set_u_obj, upd_noteq this]
  refine ⟨s3, ?_, ?_⟩
  · unfold uda_pre_common uda_pre_common_gate uda_map_objs
    simp only [hcl, ne_eq, not_false_eq_true, if_true, hc1, not_true_eq_false, if_false,
      uda_map_objs_loop, hget, hco, hchk]
  · unfold uda_post_common uda_post_close
    simp only [hcl, ne_eq, not_false_eq_true, if_true]
    have hp : u_obj (set_u_obj ioc 0 p) 0 = p := by simp [u_obj, set_u_obj]
    simp only [hp, hm3]
    have hiid : o3.instance_id = o.instance_id := by
      simp only [Prod.mk.injEq] at hid3
      exact hid3.2.2.2.1
    rw [hiid, hs3]
    simp

/-- A destroying request whose id is not in the idr fails with -ENOENT and
changes nothing. -/
theorem uda_close_absent (env : uda_env) (s : uda_state) (file ns : Nat) (ioc : uda_ioctl)
    (descc : uda_ioctl_desc) (hcl : descc.flags &&& UDA_CLOSED ≠ 0)
    (hc1 : ioc.obj_cnt = 1) (hd : (u_obj_id ioc 0).data = 0)
    (hfind : idr_find (s.ns_mem ns).idr (u_obj_id ioc 0).instance_id = none) :
    uda_pre_common env s file ns ioc descc = some (s, ioc, -ENOENT) := by
  have hget := (uda_get_obj_mismatch_enoent_aux s file ns (u_obj_id ioc 0)
    (decide (descc.flags &&& UDA_EXCL ≠ 0) && (0 == 0)) hd hfind)
  unfold uda_pre_common uda_pre_common_gate uda_map_objs
  simp only [hcl, ne_eq, not_false_eq_true, if_true, hc1, not_true_eq_false, if_false,
    uda_map_objs_loop, hget, uda_map_objs_unwind]
  simp


/-! ## The representation invariant is kept by the table operations -/

theorem table_wf_empty (s : uda_state) (ns : Nat) (h : (s.ns_mem ns).idr = []) : table_wf s ns := by
  intro id p hf
  rw [h] at hf
  simp [idr_find, List.lookup] at hf

theorem table_wf_get_obj (s s1 : uda_state) (file ns : Nat) (id : uda_obj_id) (excl : Bool)
    (r : Except Int Nat) (hwf : table_wf s ns) (h : uda_get_obj s file ns id excl = some (s1, r)) :
    table_wf s1 ns := by
  cases r with
  | error e =>
    rw [uda_get_obj_error_state s s1 file ns id excl e h]
    exact hwf
  | ok p =>
    obtain ⟨-, hfind, o, ho, -, -, -, -, hs1⟩ := uda_get_obj_ok s s1 file ns id excl p h
    obtain ⟨o1, ho1, -, hfl⟩ := hwf _ p hfind
    rw [ho] at ho1
    cases ho1
    rw [hs1]
    exact table_wf_get s ns p o excl hwf ho hfl

theorem obj_put_flags_le (o : uda_obj) : (obj_put o).flags ≤ o.flags := by
  unfold obj_put
  split
  · exact Nat.and_le_left
  · exact le_rfl

theorem table_wf_put_obj (s s1 : uda_state) (ns p : Nat) (hwf : table_wf s ns)
    (h : uda_put_obj s p = some s1) : table_wf s1 ns := by
  rw [uda_put_obj_eq] at h
  cases ho : s.obj_mem p with
  | none => rw [ho] at h; simp at h
  | some o =>
    rw [ho] at h
    simp only [Option.map_some', Option.some.injEq] at h
    rw [← h]
    intro id q hq
    obtain ⟨o1, h1, h2, h3⟩ := hwf id q hq
    by_cases hqp : q = p
    · subst hqp
      rw [ho] at h1
      cases h1
      exact ⟨obj_put o, by simp, by rw [(obj_put_fields o).2.2.2.1]; exact h2,
        lt_of_le_of_lt (obj_put_flags_le o) h3⟩
    · exact ⟨o1, by simp [upd_noteq hqp, h1], h2, h3⟩

theorem idr_find_remove_other (idr : List (Nat × Nat)) (k id : Nat) (h : id ≠ k) :
    idr_find (idr_remove idr k) id = idr_find idr id := by
  induction idr with
  | nil => rfl
  | cons e es ih =>
    obtain ⟨a, b⟩ := e
    unfold idr_find idr_remove at *
    by_cases hak : a = k
    · subst hak
      have h2 : (id == a) = false := by simpa using h
      simp only [List.filter_cons, bne_self_eq_false, Bool.false_eq_true, if_false, List.lookup_cons,
        h2]
      exact ih
    · have h1 : (a != k) = true := by simpa using hak
      simp only [List.filter_cons, h1, if_true, List.lookup_cons]
      cases (id == a)
      · exact ih
      · rfl

theorem table_wf_post_close (s s1 : uda_state) (ns : Nat) (ioctl io1 : uda_ioctl)
    (hwf : table_wf s ns) (h : uda_post_close s ns ioctl = some (s1, io1)) : table_wf s1 ns := by
  unfold uda_post_close at h
  cases ho : s.obj_mem (u_obj ioctl 0) with
  | none => simp [ho] at h
  | some o =>
    simp only [ho, Option.some.injEq, Prod.mk.injEq] at h
    rw [← h.1]
    intro id q hq
    simp only [upd_same] at hq
    by_cases hid : id = o.instance_id
    · rw [hid, idr_find_remove_self] at hq
      simp at hq
    · rw [idr_find_remove_other _ _ _ hid] at hq
      obtain ⟨o1, h1, h2, h3⟩ := hwf id q hq
      have hqp : q ≠ u_obj ioctl 0 := by
        intro hc
        rw [hc, ho] at h1
        cases h1
        exact hid h2.symm
      exact ⟨o1, by simp [upd_noteq hqp, h1], h2, h3⟩

theorem table_wf_pre_open (env : uda_env) (s s2 : uda_state) (file ns : Nat) (ioctl io2 : uda_ioctl)
    (ret : Int) (hwf : table_wf s ns) (hfresh : ∀ p, env.kzalloc = some p → s.obj_mem p = none)
    (h : uda_pre_open env s file ns ioctl = (s2, io2, ret)) : table_wf s2 ns := by
  by_cases h1 : ioctl.arg_cnt = 0
  · unfold uda_pre_open at h
    rw [if_pos h1] at h
    simp only [Prod.mk.injEq] at h
    rw [← h.1]; exact hwf
  · by_cases h2 : uda_check_arg ioctl ioctl.obj_cnt UDA_UCONTEXT 8 = 0
    · cases h3 : env.kzalloc with
      | none =>
        unfold uda_pre_open at h
        rw [if_neg h1, h2] at h
        simp only [ne_eq, not_true_eq_false, if_false, h3, Prod.mk.injEq] at h
        rw [← h.1]; exact hwf
      | some p =>
        rw [uda_pre_open_eq env s file ns ioctl p h1 h2 h3] at h
        simp only [Prod.mk.injEq] at h
        rw [← h.1]
        have hp := hfresh p h3
        have hold : ∀ id q, idr_find (s.ns_mem ns).idr id = some q →
            ∃ o, (pre_open_state env s file ns ioctl p).obj_mem q = some o ∧ o.instance_id = id ∧
              o.flags < 2 ^ 16 := by
          intro id q hq
          obtain ⟨o1, h1, h2, h3⟩ := hwf id q hq
          have hqp : q ≠ p := by
            intro hc; rw [hc, hp] at h1; cases h1
          exact ⟨o1, by simp [pre_open_state, upd_noteq hqp, h1], h2, h3⟩
        intro id q hq
        simp only [pre_open_state, upd_same] at hq
        cases hf : env.idr_fail with
        | some e =>
          rw [hf] at hq
          simp only [idr_alloc] at hq
          exact hold id q hq
        | none =>
          rw [hf] at hq
          rcases idr_alloc_cases (s.ns_mem ns).idr p with ⟨nid, -, hle, hal⟩ | hal
          · rw [hal, idr_find_cons] at hq
            by_cases hid : id = nid
            · rw [if_pos hid] at hq
              cases hq
              refine ⟨pre_open_obj env s file ns ioctl p, by simp [pre_open_state], ?_, by
                simp only [pre_open_obj]; decide⟩
              simp only [pre_open_obj, hf, hal, hid]
              exact to_u32_of_nat nid hle
            · rw [if_neg hid] at hq
              exact hold id q hq
          · rw [hal] at hq
            exact hold id q hq
    · unfold uda_pre_open at h
      rw [if_neg h1, if_pos h2] at h
      simp only [Prod.mk.injEq] at h
      rw [← h.1]; exact hwf


/-! ## The exit of `uda_pre_common` after `uda_check_args` -/

/-- For a descriptor without `UDA_OPEN`, once the mapping succeeded
`uda_pre_common` returns the value of `uda_check_args` together with the
memory and the buffer as the mapping left them: a failing bounds test is not
followed by `uda_unmap_objs`. -/
theorem uda_pre_common_after_map (env : uda_env) (s s1 : uda_state) (file ns : Nat)
    (ioctl io1 : uda_ioctl) (desc : uda_ioctl_desc)
    (hgate : uda_pre_common_gate s ns ioctl desc = none) (hopen : desc.flags &&& UDA_OPEN = 0)
    (hmap : uda_map_objs s file ns ioctl (decide (desc.flags &&& UDA_EXCL ≠ 0)) = some (s1, io1, 0)) :
    uda_pre_common env s file ns ioctl desc = some (s1, io1, uda_check_args io1) := by
  unfold uda_pre_common
  simp only [hgate, hmap, hopen]
  simp


/-- The function `uda_pre_common` is its two tests followed by the mapping part. -/
theorem uda_pre_common_eq (env : uda_env) (s : uda_state) (file ns : Nat) (ioctl : uda_ioctl)
    (desc : uda_ioctl_desc) :
    uda_pre_common env s file ns ioctl desc
      = match uda_pre_common_gate s ns ioctl desc with
        | some e => some (s, ioctl, e)
        | none => uda_pre_common_mapping env s file ns ioctl desc := by
  unfold uda_pre_common uda_pre_common_mapping
  rfl

/-- Once the command word and the header copy are in order and the name space
id resolves to `ns`, `uda_ioctl` is its part from line 260 on. -/
theorem uda_ioctl_entry_resolved (env : uda_env) (s : uda_state) (file : Nat) (cmd : ioc_cmd)
    (user : uda_user) (hdr : uda_ioctl) (ns : Nat)
    (hraw : cmd.nr &&& UDA_RAW_OP = 0) (hnr : cmd.nr = UDA_UBER_OP) (hsize : SIZEOF_HDR ≤ cmd.size)
    (hhdr : user.hdr = some hdr) (hmax : hdr.ns_id ≤ s.max_ns) (hidx : hdr.ns_id < NS_ARRAY_SIZE)
    (hns : s.ns_array hdr.ns_id = some ns) :
    uda_ioctl_entry env s file cmd user = uda_ioctl_in_ns env s file user hdr ns := by
  have h1 : ¬ (cmd.nr &&& UDA_RAW_OP ≠ 0) := by simp [hraw]
  have h2 : ¬ (cmd.nr ≠ UDA_UBER_OP ∨ cmd.size < SIZEOF_HDR) := by
    simp only [hnr, ne_eq, not_true_eq_false, false_or, not_lt]; exact hsize
  have h3 : ¬ (hdr.ns_id > s.max_ns) := by omega
  have h4 : ¬ (hdr.ns_id ≥ NS_ARRAY_SIZE) := by omega
  unfold uda_ioctl_entry uda_ioctl_in_ns uda_ioctl_with_desc
  rw [if_neg h1, if_neg h2]
  simp only [hhdr, if_neg h3, if_neg h4, hns]

/-- The rejection of a name space id by `uda_ioctl`. -/
theorem uda_ioctl_entry_no_ns (env : uda_env) (s : uda_state) (file : Nat) (cmd : ioc_cmd)
    (user : uda_user) (hdr : uda_ioctl)
    (hraw : cmd.nr &&& UDA_RAW_OP = 0) (hnr : cmd.nr = UDA_UBER_OP) (hsize : SIZEOF_HDR ≤ cmd.size)
    (hhdr : user.hdr = some hdr)
    (hno : hdr.ns_id > s.max_ns ∨ (hdr.ns_id < NS_ARRAY_SIZE ∧ s.ns_array hdr.ns_id = none)) :
    uda_ioctl_entry env s file cmd user = some ⟨-EINVAL, s, none, false⟩ := by
  have h1 : ¬ (cmd.nr &&& UDA_RAW_OP ≠ 0) := by simp [hraw]
  have h2 : ¬ (cmd.nr ≠ UDA_UBER_OP ∨ cmd.size < SIZEOF_HDR) := by
    simp only [hnr, ne_eq, not_true_eq_false, false_or, not_lt]; exact hsize
  unfold uda_ioctl_entry
  rw [if_neg h1, if_neg h2]
  simp only [hhdr]
  by_cases h3 : hdr.ns_id > s.max_ns
  · rw [if_pos h3]
  · rcases hno with h | ⟨h4, h5⟩
    · exact absurd h h3
    · have h6 : ¬ (hdr.ns_id ≥ NS_ARRAY_SIZE) := by omega
      rw [if_neg h3, if_neg h6]
      simp only [h5]

/-! ## C1: a request that fails the argument bounds after mapping -/

/-- C1 (the code departs from the claim): object 0 starts with use count 0,
the one object slot of the request maps, and the one argument ends behind the
declared length; `uda_pre_common` then returns -EINVAL and leaves the use
count of object 0 at 1.  For a creating request of the same kind the mapped
object stays at use count 1 and the new object stays in the idr, in the
session list and in memory, exclusive with use count 1. -/
theorem uda_pre_common_check_args_no_unwind :
    (ex_state.obj_mem 100).map (fun o => (o.use_cnt, o.flags)) = some (0, 0) ∧
    (uda_map_objs ex_state 7 1000 (ex_req 128 32 1 1 [id_word 0 1 0, arg_word 24 0 16 0]) false).map
      (fun r => r.2.2) = some 0 ∧
    uda_check_args (ex_req 128 32 1 1 [id_word 0 1 0, arg_word 24 0 16 0]) = -EINVAL ∧
    (uda_pre_common ex_env ex_state 7 1000
        (ex_req 128 32 1 1 [id_word 0 1 0, arg_word 24 0 16 0]) (ex_desc 128)).map
      (fun r => (r.2.2, (r.1.obj_mem 100).map (fun o => (o.use_cnt, o.flags))))
      = some (-EINVAL, some (1, 0)) ∧
    (uda_pre_common ex_env ex_state 7 1000
        (ex_req 129 48 1 2 [id_word 0 1 0, arg_word 40 UDA_UCONTEXT 8 9, arg_word 44 0 16 0, 0, 0])
        (ex_desc 129)).map
      (fun r => (r.2.2, (r.1.obj_mem 100).map (fun o => (o.use_cnt, o.flags)),
        (r.1.obj_mem 200).map (fun o => (o.use_cnt, o.flags, o.instance_id)),
        idr_find (r.1.ns_mem 1000).idr 2, r.1.obj_list 7))
      = some (-EINVAL, some (1, 0), some (1, UDA_EXCL, 2), some 200, [200, 101, 100]) := by
  refine ⟨by decide, by decide, by decide, by decide, by rfl⟩

/-! ## C2: the header test of `uda_ioctl` -/

/-- C2 (the code departs from the claim): for a header with a non-zero
reserved field the test of urdma.c lines 250-252 holds, yet `uda_ioctl` goes
on, calls the handler, returns the handler's 0 instead of -EINVAL, and the
object named by the request is removed from the idr, from the session list
and from memory. -/
theorem uda_ioctl_header_test_ignored :
    ((ex_resv_req.obj_cnt + ex_resv_req.arg_cnt) * SIZEOF_HDR_U + SIZEOF_HDR > ex_resv_req.length
      ∨ ex_resv_req.resv ≠ 0) ∧
    (idr_find (ex_state.ns_mem 1000).idr 0, ex_state.obj_list 7) = (some 100, [101, 100]) ∧
    (uda_ioctl_entry ex_env ex_state 7 ⟨UDA_UBER_OP, 16⟩
        ⟨some ex_resv_req, true, some ex_resv_req⟩).map
      (fun r => (r.ret, r.called, idr_find (r.s.ns_mem 1000).idr 0, r.s.obj_list 7,
        (r.s.obj_mem 100).isSome))
      = some (0, true, none, [101], false) := by
  refine ⟨by decide, by decide, by rfl⟩

/-- C5, counterexample: in the example table the acquisition of id 0 with the
wrong type, the acquisition of id 0 by another session and the acquisition
of the absent id 5 all produce the same `ERR_PTR(-ENOENT)`, so the three
errors are not distinct. -/
theorem uda_get_obj_mismatch_not_distinct :
    (uda_get_obj ex_state 7 1000 ⟨0, 2, 0⟩ false).map (fun r => r.2) = some (.error (-ENOENT)) ∧
    (uda_get_obj ex_state 8 1000 ⟨0, 1, 0⟩ false).map (fun r => r.2) = some (.error (-ENOENT)) ∧
    (uda_get_obj ex_state 7 1000 ⟨5, 1, 0⟩ false).map (fun r => r.2) = some (.error (-ENOENT)) ∧
    ¬ ((uda_get_obj ex_state 7 1000 ⟨0, 2, 0⟩ false).map (fun r => r.2)
        ≠ (uda_get_obj ex_state 8 1000 ⟨0, 1, 0⟩ false).map (fun r => r.2) ∧
       (uda_get_obj ex_state 7 1000 ⟨0, 2, 0⟩ false).map (fun r => r.2)
        ≠ (uda_get_obj ex_state 7 1000 ⟨5, 1, 0⟩ false).map (fun r => r.2) ∧
       (uda_get_obj ex_state 8 1000 ⟨0, 1, 0⟩ false).map (fun r => r.2)
        ≠ (uda_get_obj ex_state 7 1000 ⟨5, 1, 0⟩ false).map (fun r => r.2)) := by
  refine ⟨rfl, rfl, rfl, fun h => h.1 rfl⟩

/-- C5, amended: for an id that is present in the table (and `id.data = 0`),
`uda_get_obj` fails with -ENOENT when the stored type differs from the
requested type and also when the owning session differs from the requesting
session; this is the very error an absent id gets; in all three cases the
memory (every use count and every flag) is unchanged. -/
theorem uda_get_obj_mismatch_enoent (s : uda_state) (file ns : Nat) (id : uda_obj_id) (excl : Bool)
    (hd : id.data = 0) :
    (∀ p o, idr_find (s.ns_mem ns).idr id.instance_id = some p → s.obj_mem p = some o →
      (o.obj_type ≠ id.obj_type ∨ o.file ≠ file) →
      uda_get_obj s file ns id excl = some (s, .error (-ENOENT))) ∧
    (idr_find (s.ns_mem ns).idr id.instance_id = none →
      uda_get_obj s file ns id excl = some (s, .error (-ENOENT))) := by
  have hd1 : ¬ (id.data ≠ 0) := by simp [hd]
  constructor
  · intro p o hfind ho hne
    unfold uda_get_obj
    rw [if_neg hd1, hfind]
    simp only [ho]
    rw [if_pos hne]
  · intro hfind
    unfold uda_get_obj
    rw [if_neg hd1, hfind]

/-- C5, amended, at a concrete input: id 0 of the example asked with type 2. -/
theorem uda_get_obj_mismatch_enoent_witness :
    uda_get_obj ex_state 7 1000 ⟨0, 2, 0⟩ true = some (ex_state, .error (-ENOENT)) :=
  (uda_get_obj_mismatch_enoent ex_state 7 1000 ⟨0, 2, 0⟩ true rfl).1 100 ex_obj0 rfl rfl
    (Or.inl (by decide))


/-! ## C6: a failing `idr_alloc` in `uda_pre_open` -/

/-- C6 (the code departs from the claim): when `idr_alloc` returns -ENOMEM,
`uda_pre_open` stores the value in the `u32` field `instance_id`, where it
reads 4294967284; the tests `>= 0` and `< 0` on that field take the success
path, so the function returns 0, links the object into the session list,
raises `obj_cnt` to 1 and lowers `arg_cnt` to 0, while the idr holds no entry
for the object; `uda_pre_common` returns 0 as well. -/
theorem uda_pre_open_idr_failure_unnoticed :
    idr_alloc ex_env_idr_fail.idr_fail (ex_state.ns_mem 1000).idr 200
      = (-ENOMEM, (ex_state.ns_mem 1000).idr) ∧
    ((uda_pre_open ex_env_idr_fail ex_state 7 1000 (ex_req_create 5)).2.2,
     (uda_pre_open ex_env_idr_fail ex_state 7 1000 (ex_req_create 5)).1.obj_list 7,
     ((uda_pre_open ex_env_idr_fail ex_state 7 1000 (ex_req_create 5)).1.obj_mem 200).map
       (fun o => o.instance_id),
     ((uda_pre_open ex_env_idr_fail ex_state 7 1000 (ex_req_create 5)).1.ns_mem 1000).idr,
     (uda_pre_open ex_env_idr_fail ex_state 7 1000 (ex_req_create 5)).2.1.obj_cnt,
     (uda_pre_open ex_env_idr_fail ex_state 7 1000 (ex_req_create 5)).2.1.arg_cnt)
      = (0, [200, 101, 100], some 4294967284, [(0, 100), (1, 101)], 1, 0) ∧
    (uda_pre_common ex_env_idr_fail ex_state 7 1000 (ex_req_create 5) (ex_desc 129)).map
      (fun r => (r.2.2, r.1.obj_list 7)) = some (0, [200, 101, 100]) := by
  refine ⟨rfl, rfl, rfl⟩


/-! ## C7: registration in a registry with a free slot below a full high-water mark -/

set_option maxRecDepth 100000 in
/-- C7 (the code departs from the claim): 64 registrations from the empty
registry all return 0 and fill the slots 0..63 in order, and the 65th returns
-ENOMEM, as claimed.  After `uda_remove_ns` of the name space in slot 5 that
slot is free while `max_ns` is still 64, and the next `uda_add_ns` returns
-ENOMEM at the test `max_ns >= 64` without looking for the free slot; slot 5
stays empty.  Only after the removal of the top slot 63 does the next
registration succeed and receive the freed slot. -/
theorem uda_add_ns_full_mark_rejects :
    (add_all ex_empty ((List.range 64).map (fun i => 2000 + i))).2 = List.replicate 64 0 ∧
    (List.range 64).map ex_full.ns_array = (List.range 64).map (fun i => some (2000 + i)) ∧
    (List.range 64).map (fun i => (ex_full.ns_mem (2000 + i)).id)
      = (List.range 64).map (fun i => (i : Int)) ∧
    (uda_add_ns ex_full 3000).2 = -ENOMEM ∧
    (uda_remove_ns ex_full 2005).map (fun s => (s.ns_array 5, s.max_ns)) = some (none, 64) ∧
    (uda_remove_ns ex_full 2005).map
      (fun s => ((uda_add_ns s 3000).2, (uda_add_ns s 3000).1.ns_array 5)) = some (-ENOMEM, none) ∧
    (uda_remove_ns ex_full 2063).map
      (fun s => ((uda_add_ns s 3000).2, (uda_add_ns s 3000).1.ns_array 63,
        ((uda_add_ns s 3000).1.ns_mem 3000).id)) = some (0, some 3000, 63) := by
  refine ⟨by rfl, by rfl, by rfl, by rfl, by rfl, by rfl, by rfl⟩


/-! ## C8: a stale reference after the id was given out again -/

/-- C8, counterexample: object 0 (type 1, at address 100, session context 0)
is destroyed by a close operation, the next open operation of the same
session creates an object of type 1 at address 200 with session context 5,
and `idr_alloc` gives it the smallest free id, 0.  The old reference
{instance_id 0, type 1} then does not get -ENOENT: `uda_get_obj` returns the
new object. -/
theorem uda_get_obj_stale_reference_resolves :
    (idr_find (ex_state.ns_mem 1000).idr 0, (ex_state.obj_mem 100).map (fun o => o.ucontext))
      = (some 100, some 0) ∧
    ex_close_then_open.map (fun s => (idr_find (s.ns_mem 1000).idr 0, (s.obj_mem 100).isSome,
        (s.obj_mem 200).map (fun o => (o.ucontext, o.instance_id, o.obj_type, o.file))))
      = some (some 200, false, some (5, 0, 1, 7)) ∧
    (ex_close_then_open.bind (fun s => (uda_get_obj s 7 1000 ⟨0, 1, 0⟩ false).map (fun r => r.2)))
      = some (.ok 200) ∧
    (ex_close_then_open.bind (fun s => (uda_get_obj s 7 1000 ⟨0, 1, 0⟩ false).map (fun r => r.2)))
      ≠ some (.error (-ENOENT)) := by
  refine ⟨by rfl, by rfl, by rfl, ?_⟩
  have h : (ex_close_then_open.bind
      (fun s => (uda_get_obj s 7 1000 ⟨0, 1, 0⟩ false).map (fun r => r.2))) = some (.ok 200) := by
    rfl
  rw [h]
  simp

/-- C8, amended: after `uda_post_close` destroyed the object with id `k` and a
later `uda_pre_open` (whose `idr_alloc` did not fail) returned 0, an
acquisition with the old reference {k, t} gets -ENOENT whenever the new object
did not receive id `k`, or its type is not `t`, or it belongs to another
session than the caller; when the new object has id `k` (an id in the range
0..INT_MAX of the idr), type `t` and the caller's session, the old reference
resolves to the new object as soon as the creating request has released it. -/
theorem uda_get_obj_stale_reference (env : uda_env) (s0 s1 s2 : uda_state) (ns : Nat)
    (io_close ioc io_open io2 : uda_ioctl) (file_open file k t : Nat) (excl : Bool) (o : uda_obj)
    (henv : env.idr_fail = none)
    (hold : s0.obj_mem (u_obj io_close 0) = some o) (hk : o.instance_id = k)
    (hclose : uda_post_close s0 ns io_close = some (s1, ioc))
    (hopen : uda_pre_open env s1 file_open ns io_open = (s2, io2, 0)) :
    ∃ p1 onew, env.kzalloc = some p1 ∧ s2.obj_mem p1 = some onew ∧
      onew.file = file_open ∧ onew.obj_type = (u_arg io_open io_open.obj_cnt).data ∧
      ((onew.instance_id ≠ k ∨ onew.obj_type ≠ t ∨ onew.file ≠ file) →
        uda_get_obj s2 file ns ⟨k, t, 0⟩ excl = some (s2, .error (-ENOENT))) ∧
      (onew.instance_id = k → (k : Int) ≤ INT_MAX → onew.obj_type = t → onew.file = file →
        ∀ s3, uda_put_obj s2 p1 = some s3 →
          ∃ s4, uda_get_obj s3 file ns ⟨k, t, 0⟩ excl = some (s4, .ok p1)) := by
  obtain ⟨-, -, p1, hkz, hs2, -⟩ := uda_pre_open_ok env s1 file_open ns io_open s2 io2 hopen
  have hs1 : s1 = { s0 with
      ns_mem := upd s0.ns_mem ns
        { s0.ns_mem ns with idr := idr_remove (s0.ns_mem ns).idr k },
      obj_list := list_del s0.obj_list (u_obj io_close 0),
      obj_mem := upd s0.obj_mem (u_obj io_close 0) none } := by
    unfold uda_post_close at hclose
    simp only [hold, hk, Option.some.injEq, Prod.mk.injEq] at hclose
    exact hclose.1.symm
  have hidr1 : idr_find (s1.ns_mem ns).idr k = none := by
    rw [hs1]
    simp only [upd_same]
    exact idr_find_remove_self _ _
  have hmem : s2.obj_mem p1 = some (pre_open_obj env s1 file_open ns io_open p1) := by
    rw [hs2]; simp [pre_open_state]
  have hidr2 : (s2.ns_mem ns).idr = (idr_alloc none (s1.ns_mem ns).idr p1).2 := by
    rw [hs2]; simp [pre_open_state, henv]
  refine ⟨p1, _, hkz, hmem, rfl, rfl, ?_, ?_⟩
  · intro hne
    rcases idr_alloc_cases (s1.ns_mem ns).idr p1 with ⟨id, -, hle, hal⟩ | hal
    · have hiid : (pre_open_obj env s1 file_open ns io_open p1).instance_id = id := by
        simp only [pre_open_obj, henv, hal]
        exact to_u32_of_nat id hle
      have hfind : idr_find (s2.ns_mem ns).idr k = if k = id then some p1 else none := by
        rw [hidr2, hal]
        simp only [idr_find_cons, hidr1]
      by_cases hkid : k = id
      · rw [if_pos hkid] at hfind
        unfold uda_get_obj
        simp only [ne_eq, not_true_eq_false, if_false, hfind, hmem]
        rw [hiid] at hne
        have : (pre_open_obj env s1 file_open ns io_open p1).obj_type ≠ t ∨
            (pre_open_obj env s1 file_open ns io_open p1).file ≠ file := by
          rcases hne with h | h | h
          · exact absurd hkid.symm h
          · exact Or.inl h
          · exact Or.inr h
        rw [if_pos this]
      · rw [if_neg hkid] at hfind
        unfold uda_get_obj
        simp only [ne_eq, not_true_eq_false, if_false, hfind]
    · have hfind : idr_find (s2.ns_mem ns).idr k = none := by
        rw [hidr2, hal]
        exact hidr1
      unfold uda_get_obj
      simp only [ne_eq, not_true_eq_false, if_false, hfind]
  · intro hiid hkle hty hfile s3 hput
    have hfind : idr_find (s2.ns_mem ns).idr k = some p1 := by
      rcases idr_alloc_cases (s1.ns_mem ns).idr p1 with ⟨id, -, hle, hal⟩ | hal
      · have h1 : (pre_open_obj env s1 file_open ns io_open p1).instance_id = id := by
          simp only [pre_open_obj, henv, hal]
          exact to_u32_of_nat id hle
        rw [hidr2, hal, idr_find_cons, if_pos (by rw [← hiid, h1])]
      · exfalso
        have h1 : (pre_open_obj env s1 file_open ns io_open p1).instance_id = 4294967268 := by
          simp only [pre_open_obj, henv, hal]
          rfl
        rw [h1] at hiid
        rw [← hiid] at hkle
        exact absurd hkle (by decide)
    rw [uda_put_obj_eq, hmem] at hput
    simp only [Option.map_some', Option.some.injEq] at hput
    have hfind3 : idr_find (s3.ns_mem ns).idr k = some p1 := by
      rw [← hput]; exact hfind
    have hmem3 : s3.obj_mem p1 = some (obj_put (pre_open_obj env s1 file_open ns io_open p1)) := by
      rw [← hput]; simp
    have hnb : ¬ ((obj_put (pre_open_obj env s1 file_open ns io_open p1)).flags &&& UDA_EXCL ≠ 0 ∨
        (excl = true ∧ (obj_put (pre_open_obj env s1 file_open ns io_open p1)).use_cnt ≠ 0)) := by
      have hf := obj_put_excl (pre_open_obj env s1 file_open ns io_open p1) rfl
      have hu := (obj_put_fields (pre_open_obj env s1 file_open ns io_open p1)).2.2.2.2.2
      have hu1 : (pre_open_obj env s1 file_open ns io_open p1).use_cnt = 1 := rfl
      rw [hf, hu, hu1]
      simp
    have hf := obj_put_fields (pre_open_obj env s1 file_open ns io_open p1)
    obtain ⟨s4, o4, h4, -⟩ := (uda_get_obj_found s3 file ns ⟨k, t, 0⟩ excl p1 _ rfl hfind3 hmem3
      (by rw [hf.2.2.2.2.1]; exact hty) (by rw [hf.2.2.1]; exact hfile)).2.2 hnb
    exact ⟨s4, h4⟩


/-- C8, amended, at a concrete input: object 0 of the example is closed and
the next open creates an object of type 1 for session 7. -/
theorem uda_get_obj_stale_reference_witness :
    ∃ p1 onew, ex_env.kzalloc = some p1 ∧ ex_reopened.1.obj_mem p1 = some onew ∧
      onew.file = 7 ∧ onew.obj_type = (u_arg (ex_req 129 32 0 1 [arg_word 24 UDA_UCONTEXT 8 1, 5]) 0).data ∧
      ((onew.instance_id ≠ 0 ∨ onew.obj_type ≠ 1 ∨ onew.file ≠ 7) →
        uda_get_obj ex_reopened.1 7 1000 ⟨0, 1, 0⟩ false = some (ex_reopened.1, .error (-ENOENT))) ∧
      (onew.instance_id = 0 → ((0 : Nat) : Int) ≤ INT_MAX → onew.obj_type = 1 → onew.file = 7 →
        ∀ s3, uda_put_obj ex_reopened.1 p1 = some s3 →
          ∃ s4, uda_get_obj s3 7 1000 ⟨0, 1, 0⟩ false = some (s4, .ok p1)) :=
  uda_get_obj_stale_reference ex_env ex_state ex_closed.1 ex_reopened.1 1000 ex_mapped_close
    ex_closed.2 (ex_req 129 32 0 1 [arg_word 24 UDA_UCONTEXT 8 1, 5]) ex_reopened.2.1 7 7 0 1 false
    ex_obj0 rfl rfl rfl rfl rfl


/-! ## C9: create an object, then destroy it, then try again -/

/-- C9: a creating request without object slots whose first argument is the
session-context attribute {attr_id = UDA_UCONTEXT, length = 8, data = t}, with
the bytes `v` at its offset, passes `uda_pre_common` (the allocations
succeeding) and adds one object: owned by the caller, under an id that was
not live, of type `t`, with stored context `v`, exclusive with use count 1.
After `uda_post_common` it has use count 0, is not exclusive, and slot 0 of
the buffer names {id, t, 0}.  A destroying request that names {id, t} then
passes `uda_pre_common`, and `uda_post_common` removes the object from the
idr, the session list and memory; the same destroying request once more
fails with -ENOENT. -/
theorem uda_create_then_destroy (env : uda_env) (s : uda_state) (file ns : Nat) (ioctl : uda_ioctl)
    (desc : uda_ioctl_desc) (v t p : Nat)
    (hobj : ioctl.obj_cnt = 0) (harg : 1 ≤ ioctl.arg_cnt) (harg2 : ioctl.arg_cnt < 256)
    (hattr : (u_arg ioctl 0).attr_id = UDA_UCONTEXT) (hlen : (u_arg ioctl 0).length = 8)
    (hdata : (u_arg ioctl 0).data = t) (hv : UDA_ARG_DATA_u64 ioctl 0 = v)
    (hrest : ∀ i, 1 ≤ i → i < ioctl.arg_cnt →
      (u_arg ioctl i).offset + (u_arg ioctl i).length ≤ ioctl.length)
    (hopen : desc.flags &&& UDA_OPEN ≠ 0) (hnc : desc.flags &&& UDA_CLOSED = 0)
    (hns : (s.ns_mem ns).flags &&& UDA_CLOSED = 0)
    (hkz : env.kzalloc = some p) (hidr : env.idr_fail = none)
    (hsz : (s.ns_mem ns).idr.length < 2 ^ 31) :
    ∃ id s1 io1 s2 io2,
      idr_find (s.ns_mem ns).idr id = none ∧
      uda_pre_common env s file ns ioctl desc = some (s1, io1, 0) ∧
      s1.obj_mem p = some ⟨v, 0, file, id, t, UDA_EXCL, 1⟩ ∧
      (s1.ns_mem ns).idr = (id, p) :: (s.ns_mem ns).idr ∧
      s1.obj_list file = p :: s.obj_list file ∧
      uda_post_common s1 ns io1 desc = some (s2, io2) ∧
      s2.obj_mem p = some ⟨v, 0, file, id, t, 0, 0⟩ ∧
      u_obj_id io2 0 = ⟨id, t, 0⟩ ∧
      ∀ (envc : uda_env) (ioc : uda_ioctl) (descc : uda_ioctl_desc),
        descc.flags &&& UDA_CLOSED ≠ 0 → descc.flags &&& UDA_OPEN = 0 →
        ioc.obj_cnt = 1 → u_obj_id ioc 0 = ⟨id, t, 0⟩ → uda_check_args ioc = 0 →
        ∃ s3 ioc3 s4 ioc4,
          uda_pre_common envc s2 file ns ioc descc = some (s3, ioc3, 0) ∧
          uda_post_common s3 ns ioc3 descc = some (s4, ioc4) ∧
          idr_find (s4.ns_mem ns).idr id = none ∧
          p ∉ s4.obj_list file ∧
          s4.obj_mem p = none ∧
          uda_pre_common envc s4 file ns ioc descc = some (s4, ioc, -ENOENT) := by
  obtain ⟨id, hfree, hle, hal⟩ := idr_alloc_ok (s.ns_mem ns).idr p hsz
  have hpre := uda_pre_common_create env s file ns ioctl desc p hobj harg harg2 hattr hlen hrest
    hopen hnc hns hkz
  have hnew : pre_open_obj env s file ns ioctl p = ⟨v, 0, file, id, t, UDA_EXCL, 1⟩ := by
    simp only [pre_open_obj, hidr, hal, hobj, hv, hdata, to_u32_of_nat id hle]
  have hput : obj_put (pre_open_obj env s file ns ioctl p) = ⟨v, 0, file, id, t, 0, 0⟩ := by
    rw [hnew]
    simp [obj_put]
    decide
  have hun := uda_unmap_objs_created env s file ns ioctl p hobj
  have hpost : uda_post_common (pre_open_state env s file ns ioctl p) ns (pre_open_ioctl ioctl p) desc
      = some ({ pre_open_state env s file ns ioctl p with
                obj_mem := upd (pre_open_state env s file ns ioctl p).obj_mem p
                  (some (obj_put (pre_open_obj env s file ns ioctl p))) },
              { pre_open_ioctl ioctl p with
                u := upd (pre_open_ioctl ioctl p).u 0
                  (obj_id_word (pre_open_obj env s file ns ioctl p)) }) := by
    unfold uda_post_common
    simp only [hnc, ne_eq, not_true_eq_false, if_false]
    exact hun
  have hidlt : id < 2 ^ 32 := by
    have : (id : Int) ≤ 2147483647 := hle
    norm_num
    omega
  have htlt : t < 2 ^ 16 := by
    rw [← hdata]
    simp only [u_arg]
    exact Nat.mod_lt _ (by norm_num)
  have hslot : u_obj_id { pre_open_ioctl ioctl p with
      u := upd (pre_open_ioctl ioctl p).u 0 (obj_id_word (pre_open_obj env s file ns ioctl p)) } 0
      = ⟨id, t, 0⟩ := by
    simp only [u_obj_id, upd_same, hnew, obj_id_word]
    norm_num at hidlt htlt ⊢
    refine ⟨?_, ?_, ?_⟩ <;> omega
  have hidr1 : ((pre_open_state env s file ns ioctl p).ns_mem ns).idr = (id, p) :: (s.ns_mem ns).idr := by
    simp [pre_open_state, hidr, hal]
  refine ⟨id, _, _, _, _, hfree, hpre, ?_, hidr1, ?_, hpost, ?_, hslot, ?_⟩
  · simp [pre_open_state, hnew]
  · simp [pre_open_state, list_add]
  · simp [hput]
  · intro envc ioc descc hcl hco hc1 hcid hargs
    have hd : (u_obj_id ioc 0).data = 0 := by rw [hcid]
    have hiid : (u_obj_id ioc 0).instance_id = id := by rw [hcid]
    have hty : (u_obj_id ioc 0).obj_type = t := by rw [hcid]
    obtain ⟨s3, hpre3, hpost3⟩ := uda_close_free_object envc
      { pre_open_state env s file ns ioctl p with
        obj_mem := upd (pre_open_state env s file ns ioctl p).obj_mem p
          (some (obj_put (pre_open_obj env s file ns ioctl p))) }
      file ns ioc descc p ⟨v, 0, file, id, t, 0, 0⟩ hcl hco hc1 hd
      (by rw [hiid]; simp only [hidr1, idr_find_cons, if_true])
      (by simp [hput]) (by rw [hty]) rfl (by simp) rfl hargs
    refine ⟨s3, _, _, _, hpre3, hpost3, ?_, ?_, ?_, ?_⟩
    · simp only [upd_same, hidr1]
      exact idr_find_remove_self _ _
    · simp [list_del]
    · simp
    · apply uda_close_absent envc _ file ns ioc descc hcl hc1 hd
      rw [hiid]
      simp only [upd_same, hidr1]
      exact idr_find_remove_self _ _


/-- C9, at a concrete input: session 7 creates an object of type 9 with session
context 5 in the example name space; the new object gets id 2 at address 200. -/
theorem uda_create_then_destroy_witness :
    ∃ id s1 io1 s2 io2,
      idr_find (ex_state.ns_mem 1000).idr id = none ∧
      uda_pre_common ex_env ex_state 7 1000 (ex_req_create 5) (ex_desc 129) = some (s1, io1, 0) ∧
      s1.obj_mem 200 = some ⟨5, 0, 7, id, 9, UDA_EXCL, 1⟩ ∧
      (s1.ns_mem 1000).idr = (id, 200) :: (ex_state.ns_mem 1000).idr ∧
      s1.obj_list 7 = 200 :: ex_state.obj_list 7 ∧
      uda_post_common s1 1000 io1 (ex_desc 129) = some (s2, io2) ∧
      s2.obj_mem 200 = some ⟨5, 0, 7, id, 9, 0, 0⟩ ∧
      u_obj_id io2 0 = ⟨id, 9, 0⟩ ∧
      ∀ (envc : uda_env) (ioc : uda_ioctl) (descc : uda_ioctl_desc),
        descc.flags &&& UDA_CLOSED ≠ 0 → descc.flags &&& UDA_OPEN = 0 →
        ioc.obj_cnt = 1 → u_obj_id ioc 0 = ⟨id, 9, 0⟩ → uda_check_args ioc = 0 →
        ∃ s3 ioc3 s4 ioc4,
          uda_pre_common envc s2 7 1000 ioc descc = some (s3, ioc3, 0) ∧
          uda_post_common s3 1000 ioc3 descc = some (s4, ioc4) ∧
          idr_find (s4.ns_mem 1000).idr id = none ∧
          200 ∉ s4.obj_list 7 ∧
          s4.obj_mem 200 = none ∧
          uda_pre_common envc s4 7 1000 ioc descc = some (s4, ioc, -ENOENT) :=
  uda_create_then_destroy ex_env ex_state 7 1000 (ex_req_create 5) (ex_desc 129) 5 9 200
    rfl (by decide) (by decide) rfl rfl rfl rfl
    (by intro i h1 h2; simp only [ex_req_create, ex_req] at h2; omega)
    (by decide) (by decide) (by decide) rfl rfl (by decide)


/-! ## C10: map followed by unmap -/

/-- C10: for a request that reaches `uda_pre_common` with a descriptor that
neither creates nor destroys an object and passes it, `uda_ioctl` calls the
handler and returns exactly the handler's value, whatever it is; the kernel
memory after the call is the memory before it (every use count and exclusive
flag as before) and the request buffer after post-processing is the buffer
that came in (every object slot holds its identifier again). -/
theorem uda_ioctl_plain_op_identity (env : uda_env) (s s1 : uda_state) (file ns : Nat)
    (cmd : ioc_cmd) (user : uda_user) (hdr data data1 : uda_ioctl) (desc : uda_ioctl_desc)
    (hraw : cmd.nr &&& UDA_RAW_OP = 0) (hnr : cmd.nr = UDA_UBER_OP) (hsize : SIZEOF_HDR ≤ cmd.size)
    (hhdr : user.hdr = some hdr) (hmax : hdr.ns_id ≤ s.max_ns) (hidx : hdr.ns_id < NS_ARRAY_SIZE)
    (hns : s.ns_array hdr.ns_id = some ns)
    (hop1 : (s.ns_mem ns).ioctl_base ≤ hdr.op)
    (hop2 : hdr.op < ((s.ns_mem ns).ioctl_base + to_u64 (s.ns_mem ns).num_ioctls) % 2 ^ 64)
    (hdesc : (s.ns_mem ns).ioctl_desc hdr = .ok desc)
    (hkm : hdr.length ≤ SIZEOF_STACK_DATA ∨ user.kmalloc = true)
    (hdata : user.data = some data)
    (hopen : desc.flags &&& UDA_OPEN = 0) (hclosed : desc.flags &&& UDA_CLOSED = 0)
    (hwf : table_wf s ns) (hu : ∀ t, t < data.obj_cnt → data.u t < 2 ^ 64)
    (hpre : uda_pre_common env s file ns data desc = some (s1, data1, 0)) :
    uda_ioctl_entry env s file cmd user = some ⟨desc.func ns data1, s, some data, true⟩ := by
  have hmap : uda_map_objs s file ns data (decide (desc.flags &&& UDA_EXCL ≠ 0)) = some (s1, data1, 0) := by
    unfold uda_pre_common uda_pre_common_gate at hpre
    simp only [hclosed, ne_eq, not_true_eq_false, if_false, hopen] at hpre
    split at hpre
    · rename_i e he
      split at he
      · simp only [Option.some.injEq, Prod.mk.injEq] at hpre
        simp only [Option.some.injEq] at he
        rw [← he] at hpre
        exact absurd hpre.2.2 (by decide)
      · simp at he
    · split at hpre
      · simp at hpre
      · rename_i s2 io2 ret hm
        split at hpre
        · rename_i hret
          simp only [Option.some.injEq, Prod.mk.injEq] at hpre
          exact absurd hpre.2.2 hret
        · rename_i hret
          simp only [Option.some.injEq, Prod.mk.injEq] at hpre
          have : ret = 0 := by simpa using hret
          rw [hm, this, hpre.1, hpre.2.1]
  have hpost : uda_post_common s1 ns data1 desc = some (s, data) := by
    unfold uda_post_common
    simp only [hclosed, ne_eq, not_true_eq_false, if_false]
    exact uda_unmap_objs_after_map s file ns data _ s1 data1 hwf hu hmap
  unfold uda_ioctl_entry
  have h1 : ¬ (cmd.nr &&& UDA_RAW_OP ≠ 0) := by simp [hraw]
  have h2 : ¬ (cmd.nr ≠ UDA_UBER_OP ∨ cmd.size < SIZEOF_HDR) := by
    simp only [hnr, ne_eq, not_true_eq_false, false_or, not_lt]; exact hsize
  have h3 : ¬ (hdr.ns_id > s.max_ns) := by omega
  have h4 : ¬ (hdr.ns_id ≥ NS_ARRAY_SIZE) := by omega
  have h5 : ¬ (hdr.op < (s.ns_mem ns).ioctl_base ∨
      hdr.op ≥ ((s.ns_mem ns).ioctl_base + to_u64 (s.ns_mem ns).num_ioctls) % 2 ^ 64) := by
    omega
  have h6 : ¬ (hdr.length > SIZEOF_STACK_DATA ∧ user.kmalloc = false) := by
    rcases hkm with h | h
    · omega
    · simp [h]
  rw [if_neg h1, if_neg h2]
  simp only [hhdr, if_neg h3, if_neg h4, hns, if_neg h5, hdesc, if_neg h6, hdata, hpre, hpost]
  simp


/-- C10, at a concrete input: operation 131 of the example (exclusive, the
handler returns -5) on the objects 0 and 1. -/
theorem uda_ioctl_plain_op_identity_witness :
    uda_ioctl_entry ex_env ex_state 7 ex_cmd (ex_user ex_req_2slots)
      = some ⟨-5, ex_state, some ex_req_2slots, true⟩ :=
  uda_ioctl_plain_op_identity ex_env ex_state _ 7 1000 ex_cmd (ex_user ex_req_2slots)
    ex_req_2slots ex_req_2slots _ (ex_desc 131)
    (by decide) rfl (by decide) rfl (by decide) (by decide) rfl (by decide) (by decide) rfl
    (Or.inl (by decide)) rfl (by decide) (by decide) (table_wf_of_check _ _ (by decide))
    (by intro t ht; simp only [ex_req_2slots, ex_req] at ht ⊢; interval_cases t <;> simp [id_word])
    rfl


/-! ## C11: what holds the object at the time of `uda_post_close` -/

/-- With a destroying descriptor that carries `UDA_EXCL` (and not `UDA_OPEN`),
a request that passes `uda_pre_common` holds the object of slot 0
exclusively: the flag is set and the use count is 1. -/
theorem uda_pre_common_close_excl (env : uda_env) (s s1 : uda_state) (file ns : Nat)
    (ioctl io1 : uda_ioctl) (desc : uda_ioctl_desc)
    (hcl : desc.flags &&& UDA_CLOSED ≠ 0) (hex : desc.flags &&& UDA_EXCL ≠ 0)
    (hop : desc.flags &&& UDA_OPEN = 0)
    (hpre : uda_pre_common env s file ns ioctl desc = some (s1, io1, 0)) :
    ∃ o, s1.obj_mem (u_obj io1 0) = some o ∧ o.flags &&& UDA_EXCL ≠ 0 ∧ o.use_cnt = 1 := by
  unfold uda_pre_common uda_pre_common_gate at hpre
  simp only [hcl, ne_eq, not_false_eq_true, if_true] at hpre
  by_cases hc : ioctl.obj_cnt = 1
  · simp only [hc, not_true_eq_false, if_false, hop] at hpre
    unfold uda_map_objs at hpre
    simp only [hc, uda_map_objs_loop, hex, not_false_eq_true, decide_True, beq_self_eq_true,
      Bool.and_self] at hpre
    cases hg : uda_get_obj s file ns (u_obj_id ioctl 0) true with
    | none => simp [hg] at hpre
    | some r =>
      obtain ⟨s2, res⟩ := r
      cases res with
      | error e =>
        have he := uda_get_obj_error_ne_zero _ _ _ _ _ _ _ hg
        simp [hg, uda_map_objs_unwind, he] at hpre
      | ok p =>
        simp only [hg, ne_eq, not_true_eq_false, if_false, Option.some.injEq, Prod.mk.injEq] at hpre
        obtain ⟨-, -, o, ho, -, -, hfl, huse, hs2⟩ := uda_get_obj_ok s s2 file ns _ true p hg
        rw [← hpre.1, ← hpre.2.1, hs2]
        refine ⟨obj_get o true, by simp [u_obj, set_u_obj], ?_, ?_⟩
        · simpa [obj_get] using excl_set_ne o.flags
        · simp [obj_get, huse rfl]
  · simp [hc] at hpre

/-- C11 (the code departs from the claim): with a destroying descriptor that
lacks `UDA_EXCL`, a request on object 0 passes `uda_pre_common` while another
request holds a shared reference to it; when `uda_post_close` is reached the
object is not exclusive and its use count is 2, and `uda_post_common` removes
it from the idr and from memory all the same, so the release of the other
reference goes to freed memory. -/
theorem uda_post_close_shared_object :
    (ex_state_held.obj_mem 100).map (fun o => (o.use_cnt, o.flags)) = some (1, 0) ∧
    (uda_pre_common ex_env ex_state_held 7 1000 ex_req_close ex_desc_close_shared).map
      (fun r => (r.2.2, u_obj r.2.1 0, (r.1.obj_mem 100).map (fun o => (o.use_cnt, o.flags))))
      = some (0, 100, some (2, 0)) ∧
    ((uda_pre_common ex_env ex_state_held 7 1000 ex_req_close ex_desc_close_shared).bind
      (fun r => uda_post_common r.1 1000 r.2.1 ex_desc_close_shared)).map
      (fun r => (idr_find (r.1.ns_mem 1000).idr 0, (r.1.obj_mem 100).isSome,
        (uda_put_obj r.1 100).isSome))
      = some (none, false, false) := by
  refine ⟨by rfl, by rfl, by rfl⟩

/-- C11, with a concrete exclusive descriptor: operation 130 of the example on
the free object 0. -/
theorem uda_pre_common_close_excl_example :
    ∃ o, (ex_closing.1).obj_mem (u_obj ex_closing.2.1 0) = some o ∧ o.flags &&& UDA_EXCL ≠ 0 ∧
      o.use_cnt = 1 :=
  uda_pre_common_close_excl ex_env ex_state ex_closing.1 7 1000 ex_req_close ex_closing.2.1
    (ex_desc 130) (by decide) (by decide) (by decide) rfl


/-! ## C12: `uda_remove_ns` of the only registered name space -/

set_option maxRecDepth 100000 in
/-- C12 (the code departs from the claim): in the registry whose only name
space sits in slot 0 (`max_ns = 1`), `uda_remove_ns` empties slot 0 and its
`while` loop lowers `max_ns` to 0 and then tests `ns_array[max_ns - 1]`, that
is index -1, outside the array: the call has no defined result.  With another
name space left above (the full registry, slot 5 removed) the call does end,
sets the closed flag, empties slot 5 only and keeps `max_ns = 64`. -/
theorem uda_remove_ns_last_reads_outside :
    (ex_single.max_ns, ex_single.ns_array 0, (ex_single.ns_mem 2000).id) = (1, some 2000, 0) ∧
    uda_remove_ns_loop (upd ex_single.ns_array 0 none) 1 = none ∧
    (uda_remove_ns ex_single 2000).isNone = true ∧
    (uda_remove_ns ex_full 2005).map (fun s => (s.max_ns, (s.ns_mem 2005).flags &&& UDA_CLOSED,
        (List.range 64).map s.ns_array))
      = some (64, UDA_CLOSED, (List.range 64).map (fun i => if i = 5 then none else some (2000 + i))) := by
  refine ⟨by rfl, by rfl, by rfl, by rfl⟩


/-! ## C13: the resolution of the name space id -/

set_option maxRecDepth 100000 in
/-- C13, counterexample: in the example registry the id 5 names no name space
and `uda_ioctl` returns -EINVAL for it, while an unknown handle (id 5 in the
registered name space 1) gets -ENOENT, so the two errors are not of one kind;
and in the full registry (`max_ns = 64`) the id 64 passes `hdr.ns_id > max_ns`
and `ns_array[64]` is read, outside the array. -/
theorem uda_ioctl_unknown_ns_einval :
    (ex_state.ns_array 5, ex_state.max_ns) = (none, 2) ∧
    (uda_ioctl_entry ex_env ex_state 7 ex_cmd
        (ex_user { ex_req 128 16 0 0 [] with ns_id := 5 })).map (fun r => (r.ret, r.called))
      = some (-EINVAL, false) ∧
    (uda_ioctl_entry ex_env ex_state 7 ex_cmd
        (ex_user (ex_req 128 24 1 0 [id_word 5 1 0]))).map (fun r => (r.ret, r.called))
      = some (-ENOENT, false) ∧
    -EINVAL ≠ -ENOENT ∧
    ex_full.max_ns = 64 ∧
    (uda_ioctl_entry ex_env ex_full 7 ex_cmd
        (ex_user { ex_req 128 16 0 0 [] with ns_id := 64 })).isNone = true := by
  refine ⟨by rfl, by rfl, by rfl, by decide, by rfl, by rfl⟩

/-- C13, amended: for every name space id in a request and every registry,
the id 64 or more at or below the high-water mark apart, the resolution reads
a slot 0..63 or none at all; an id above `max_ns` or with an empty slot makes
`uda_ioctl` return -EINVAL with the memory untouched and no handler called;
an id whose slot holds a name space resolves to exactly that name space, and
the call goes on in it with the test of the operation code. -/
theorem uda_ioctl_ns_resolution (env : uda_env) (s : uda_state) (file : Nat) (cmd : ioc_cmd)
    (user : uda_user) (hdr : uda_ioctl)
    (hraw : cmd.nr &&& UDA_RAW_OP = 0) (hnr : cmd.nr = UDA_UBER_OP) (hsize : SIZEOF_HDR ≤ cmd.size)
    (hhdr : user.hdr = some hdr)
    (hin : hdr.ns_id < NS_ARRAY_SIZE ∨ hdr.ns_id > s.max_ns) :
    ((hdr.ns_id > s.max_ns ∨ s.ns_array hdr.ns_id = none) →
      uda_ioctl_entry env s file cmd user = some ⟨-EINVAL, s, none, false⟩) ∧
    (∀ ns, hdr.ns_id ≤ s.max_ns → s.ns_array hdr.ns_id = some ns →
      hdr.ns_id < NS_ARRAY_SIZE ∧
      uda_ioctl_entry env s file cmd user = uda_ioctl_in_ns env s file user hdr ns) := by
  constructor
  · intro h
    apply uda_ioctl_entry_no_ns env s file cmd user hdr hraw hnr hsize hhdr
    rcases h with h | h
    · exact Or.inl h
    · rcases hin with h2 | h2
      · exact Or.inr ⟨h2, h⟩
      · exact Or.inl h2
  · intro ns hmax hns
    have hidx : hdr.ns_id < NS_ARRAY_SIZE := by
      rcases hin with h2 | h2
      · exact h2
      · omega
    exact ⟨hidx, uda_ioctl_entry_resolved env s file cmd user hdr ns hraw hnr hsize hhdr hmax hidx hns⟩

/-- C13, amended, at a concrete input: the id 5 in the example registry. -/
theorem uda_ioctl_ns_resolution_witness :
    uda_ioctl_entry ex_env ex_state 7 ex_cmd (ex_user { ex_req 128 16 0 0 [] with ns_id := 5 })
      = some ⟨-EINVAL, ex_state, none, false⟩ :=
  (uda_ioctl_ns_resolution ex_env ex_state 7 ex_cmd (ex_user { ex_req 128 16 0 0 [] with ns_id := 5 })
    { ex_req 128 16 0 0 [] with ns_id := 5 } (by decide) rfl (by decide) rfl
    (Or.inl (by decide))).1 (Or.inl (by decide))


/-! ## C14: the test of the operation code -/

theorem to_u64_of_count (n : Int) (h0 : 0 ≤ n) (h1 : n ≤ INT_MAX) : (to_u64 n : Int) = n := by
  unfold to_u64
  have h2 : n ≤ 2147483647 := h1
  have : n % 2 ^ 64 = n := Int.emod_eq_of_lt h0 (by omega)
  rw [this]
  exact Int.toNat_of_nonneg h0

/-- For the name space manager the range test of `uda_ioctl` leaves only the
index `UDA_NS_MGR_QUERY`, which is inside the one-entry arrays that
`ns_mgr_get_desc` indexes. -/
theorem ns_mgr_index_in_range (hdr : uda_ioctl) (hop32 : hdr.op < 2 ^ 32)
    (hrange : ¬ (hdr.op < ns_mgr.ioctl_base ∨
      hdr.op ≥ (ns_mgr.ioctl_base + to_u64 ns_mgr.num_ioctls) % 2 ^ 64)) :
    (hdr.op - UDA_NS_MGR_BASE) % 2 ^ 32 = UDA_NS_MGR_QUERY ∧
    (ns_mgr_check_ops ((hdr.op - UDA_NS_MGR_BASE) % 2 ^ 32)).isSome = true ∧
    (ns_mgr_ops ((hdr.op - UDA_NS_MGR_BASE) % 2 ^ 32)).isSome = true := by
  have h1 : (ns_mgr.ioctl_base + to_u64 ns_mgr.num_ioctls) % 2 ^ 64 = 1 := by rfl
  have h0 : ns_mgr.ioctl_base = 0 := rfl
  rw [h1, h0] at hrange
  have hop : hdr.op = 0 := by omega
  rw [hop]
  exact ⟨rfl, rfl, rfl⟩

/-- C14: for a request that resolves to the name space `ns` with operation base
`b` and count `n` (a count: 0 ≤ n), an operation code outside [b, b + n) makes
`uda_ioctl` return -ENOSYS with the memory untouched, no handler called and
`ns->ioctl_desc` not consulted (the result is fixed whatever that function
is); for a code inside [b, b + n) the call goes on with the pointer that
`ns->ioctl_desc` returns for the header, and there `op - b` is below `n`. -/
theorem uda_ioctl_op_range (env : uda_env) (s : uda_state) (file : Nat) (cmd : ioc_cmd)
    (user : uda_user) (hdr : uda_ioctl) (ns : Nat)
    (hraw : cmd.nr &&& UDA_RAW_OP = 0) (hnr : cmd.nr = UDA_UBER_OP) (hsize : SIZEOF_HDR ≤ cmd.size)
    (hhdr : user.hdr = some hdr) (hmax : hdr.ns_id ≤ s.max_ns) (hidx : hdr.ns_id < NS_ARRAY_SIZE)
    (hns : s.ns_array hdr.ns_id = some ns) (hop32 : hdr.op < 2 ^ 32)
    (hn0 : 0 ≤ (s.ns_mem ns).num_ioctls) (hn1 : (s.ns_mem ns).num_ioctls ≤ INT_MAX) :
    (((hdr.op : Int) < (s.ns_mem ns).ioctl_base ∨
        ((s.ns_mem ns).ioctl_base : Int) + (s.ns_mem ns).num_ioctls ≤ hdr.op) →
      uda_ioctl_entry env s file cmd user = some ⟨-ENOSYS, s, none, false⟩) ∧
    (((s.ns_mem ns).ioctl_base : Int) ≤ hdr.op →
      (hdr.op : Int) < ((s.ns_mem ns).ioctl_base : Int) + (s.ns_mem ns).num_ioctls →
      uda_ioctl_entry env s file cmd user
        = uda_ioctl_with_desc env s file user hdr ns ((s.ns_mem ns).ioctl_desc hdr) ∧
      (hdr.op : Int) - ((s.ns_mem ns).ioctl_base : Int) < (s.ns_mem ns).num_ioctls) := by
  have hres := uda_ioctl_entry_resolved env s file cmd user hdr ns hraw hnr hsize hhdr hmax hidx hns
  have hu := to_u64_of_count _ hn0 hn1
  have hn2 : (s.ns_mem ns).num_ioctls ≤ 2147483647 := hn1
  have h32 : hdr.op < 4294967296 := by norm_num at hop32; exact hop32
  constructor
  · intro hout
    rw [hres]
    unfold uda_ioctl_in_ns
    have : hdr.op < (s.ns_mem ns).ioctl_base ∨
        hdr.op ≥ ((s.ns_mem ns).ioctl_base + to_u64 (s.ns_mem ns).num_ioctls) % 2 ^ 64 := by
      by_cases hlt : hdr.op < (s.ns_mem ns).ioctl_base
      · exact Or.inl hlt
      · right
        have hmod : ((s.ns_mem ns).ioctl_base + to_u64 (s.ns_mem ns).num_ioctls) % 2 ^ 64
            = (s.ns_mem ns).ioctl_base + to_u64 (s.ns_mem ns).num_ioctls := by
          apply Nat.mod_eq_of_lt
          norm_num
          omega
        rw [hmod]
        omega
    rw [if_pos this]
  · intro hlo hhi
    refine ⟨?_, by omega⟩
    rw [hres]
    unfold uda_ioctl_in_ns
    have : ¬ (hdr.op < (s.ns_mem ns).ioctl_base ∨
        hdr.op ≥ ((s.ns_mem ns).ioctl_base + to_u64 (s.ns_mem ns).num_ioctls) % 2 ^ 64) := by
      have hmod : ((s.ns_mem ns).ioctl_base + to_u64 (s.ns_mem ns).num_ioctls) % 2 ^ 64
          = (s.ns_mem ns).ioctl_base + to_u64 (s.ns_mem ns).num_ioctls := by
        apply Nat.mod_eq_of_lt
        norm_num
        omega
      rw [hmod]
      omega
    rw [if_neg this]

/-- C14, at a concrete input: operation 132 lies outside the range [128, 132)
of the example name space. -/
theorem uda_ioctl_op_range_witness :
    uda_ioctl_entry ex_env ex_state 7 ex_cmd (ex_user (ex_req 132 16 0 0 []))
      = some ⟨-ENOSYS, ex_state, none, false⟩ :=
  (uda_ioctl_op_range ex_env ex_state 7 ex_cmd (ex_user (ex_req 132 16 0 0 []))
    (ex_req 132 16 0 0 []) 1000 (by decide) rfl (by decide) rfl (by decide) (by decide) rfl
    (by decide) (by decide) (by decide)).1 (Or.inr (by decide))


/-! ## C15: requests to a closed name space -/

/-- C15: in a name space whose closed flag is set, `uda_pre_common` returns
-ENODEV for every descriptor without `UDA_CLOSED` and -EINVAL for every
destroying descriptor with an object count other than 1, in both cases with
the memory and the request buffer as they came in (nothing is mapped); a
destroying request with exactly one object slot passes both tests and the
function goes on with `uda_map_objs`. -/
theorem uda_pre_common_closed_ns (env : uda_env) (s : uda_state) (file ns : Nat) (ioctl : uda_ioctl)
    (desc : uda_ioctl_desc) (hclosed : (s.ns_mem ns).flags &&& UDA_CLOSED ≠ 0) :
    (desc.flags &&& UDA_CLOSED = 0 →
      uda_pre_common env s file ns ioctl desc = some (s, ioctl, -ENODEV)) ∧
    (desc.flags &&& UDA_CLOSED ≠ 0 → ioctl.obj_cnt ≠ 1 →
      uda_pre_common env s file ns ioctl desc = some (s, ioctl, -EINVAL)) ∧
    (desc.flags &&& UDA_CLOSED ≠ 0 → ioctl.obj_cnt = 1 →
      uda_pre_common_gate s ns ioctl desc = none ∧
      uda_pre_common env s file ns ioctl desc
        = uda_pre_common_mapping env s file ns ioctl desc) := by
  refine ⟨?_, ?_, ?_⟩
  · intro hd
    rw [uda_pre_common_eq]
    have : uda_pre_common_gate s ns ioctl desc = some (-ENODEV) := by
      unfold uda_pre_common_gate
      simp only [hd, ne_eq, not_true_eq_false, if_false, hclosed, not_false_eq_true, if_true]
    rw [this]
  · intro hd hc
    rw [uda_pre_common_eq]
    have : uda_pre_common_gate s ns ioctl desc = some (-EINVAL) := by
      unfold uda_pre_common_gate
      simp only [hd, ne_eq, not_false_eq_true, if_true, hc]
    rw [this]
  · intro hd hc
    have : uda_pre_common_gate s ns ioctl desc = none := by
      unfold uda_pre_common_gate
      simp only [hd, ne_eq, not_false_eq_true, if_true, hc, not_true_eq_false, if_false]
    refine ⟨this, ?_⟩
    rw [uda_pre_common_eq, this]

/-- C15, at a concrete input: the plain operation 128 in the closed example
name space. -/
theorem uda_pre_common_closed_ns_witness :
    uda_pre_common ex_env ex_state_ns_closed 7 1000 ex_req_2slots (ex_desc 128)
      = some (ex_state_ns_closed, ex_req_2slots, -ENODEV) :=
  (uda_pre_common_closed_ns ex_env ex_state_ns_closed 7 1000 ex_req_2slots (ex_desc 128)
    (by decide)).1 (by decide)


/-! ## C16: requests to a name space after `uda_remove_ns` -/

/-- C16 (the code departs from the claim): `uda_remove_ns` of the name space in
slot 1 sets its closed flag, empties slot 1 and leaves its two objects in the
idr.  A creating request to id 1 is then rejected, but so is the destroying
request of session 7 on its live object 0: `uda_ioctl` finds `ns_array[1]`
empty and returns -EINVAL, the handler is not called and the object stays in
the table.  `uda_pre_common` itself, called with the name space, would let
the same destroying request pass. -/
theorem uda_ioctl_after_remove_ns_rejects_close :
    (uda_remove_ns ex_two 1000).isSome = true ∧
    (ex_two_removed.max_ns, ex_two_removed.ns_array 1,
      (ex_two_removed.ns_mem 1000).flags &&& UDA_CLOSED, (ex_two_removed.ns_mem 1000).idr)
      = (1, none, UDA_CLOSED, [(0, 100), (1, 101)]) ∧
    (uda_ioctl_entry ex_env ex_two_removed 7 ex_cmd (ex_user (ex_req_create 5))).map
      (fun r => (r.ret, r.called)) = some (-EINVAL, false) ∧
    (uda_ioctl_entry ex_env ex_two_removed 7 ex_cmd (ex_user ex_req_close)).map
      (fun r => (r.ret, r.called, idr_find (r.s.ns_mem 1000).idr 0, (r.s.obj_mem 100).isSome))
      = some (-EINVAL, false, some 100, true) ∧
    (uda_pre_common ex_env ex_two_removed 7 1000 ex_req_close (ex_desc 130)).map
      (fun r => r.2.2) = some 0 := by
  refine ⟨by rfl, by rfl, by rfl, by rfl, by rfl⟩


/-! ## C17: the query of the name space manager -/

/-- The query of the name space manager when the local `hdr` of `uda_ioctl`
passes `uda_check_query`.  The local `hdr` is the 16 copied header bytes; its
`u.arg[0]`, which `uda_check_query` reads, is the memory behind them and not
the argument of the request `data`.  After `uda_init` on an empty registry the
name space manager is in slot 0 with id 0, `ns_mgr_get_desc` returns the query
descriptor, and `uda_ioctl` returns -ENOSYS from the handler when the
arguments of the request lie within the declared length and -EINVAL without
calling the handler when they do not; the memory is unchanged. -/
theorem uda_ioctl_query_passed (env : uda_env) (s : uda_state) (a file : Nat) (cmd : ioc_cmd)
    (user : uda_user) (hdr data : uda_ioctl)
    (hempty : s.max_ns = 0) (hmgr : s.ns_mem a = ns_mgr)
    (hraw : cmd.nr &&& UDA_RAW_OP = 0) (hnr : cmd.nr = UDA_UBER_OP) (hsize : SIZEOF_HDR ≤ cmd.size)
    (hhdr : user.hdr = some hdr) (hid : hdr.ns_id = 0)
    (hop : hdr.op = UDA_NS_MGR_BASE + UDA_NS_MGR_QUERY) (hchk : uda_check_query hdr = 0)
    (hkm : hdr.length ≤ SIZEOF_STACK_DATA ∨ user.kmalloc = true)
    (hdata : user.data = some data) (hcnt : data.obj_cnt = hdr.obj_cnt) :
    (uda_init s a).ns_array 0 = some a ∧ ((uda_init s a).ns_mem a).id = 0 ∧
    ns_mgr_get_desc hdr = .ok { flags := 0, func := uda_query_ns } ∧
    (uda_check_args data = 0 →
      uda_ioctl_entry env (uda_init s a) file cmd user
        = some ⟨-ENOSYS, uda_init s a, some data, true⟩) ∧
    (uda_check_args data ≠ 0 →
      uda_ioctl_entry env (uda_init s a) file cmd user
        = some ⟨-EINVAL, uda_init s a, some data, false⟩) := by
  have hinit : uda_init s a
      = { s with ns_array := upd s.ns_array 0 (some a), ns_mem := upd s.ns_mem a ns_mgr, max_ns := 1 } := by
    unfold uda_init uda_add_ns
    simp [hempty, uda_add_ns_loop, hmgr, ns_mgr]
  have hobj0 : hdr.obj_cnt = 0 := by
    unfold uda_check_query at hchk
    by_contra hne
    simp [hne] at hchk
  have hdesc : ns_mgr_get_desc hdr = .ok { flags := 0, func := uda_query_ns } := by
    unfold ns_mgr_get_desc
    simp only [hop, ns_mgr_check_ops, ns_mgr_ops]
    simp [hchk]
  have hres : uda_ioctl_entry env (uda_init s a) file cmd user
      = uda_ioctl_in_ns env (uda_init s a) file user hdr a := by
    apply uda_ioctl_entry_resolved env _ file cmd user hdr a hraw hnr hsize hhdr
    · rw [hid]; exact Nat.zero_le _
    · rw [hid]; decide
    · rw [hid, hinit]; simp
  have hnsv : (uda_init s a).ns_mem a = ns_mgr := by rw [hinit]; simp
  have hrange : ¬ (hdr.op < ((uda_init s a).ns_mem a).ioctl_base ∨
      hdr.op ≥ (((uda_init s a).ns_mem a).ioctl_base
        + to_u64 ((uda_init s a).ns_mem a).num_ioctls) % 2 ^ 64) := by
    rw [hnsv, hop]
    decide
  have h6 : ¬ (hdr.length > SIZEOF_STACK_DATA ∧ user.kmalloc = false) := by
    rcases hkm with h | h
    · omega
    · simp [h]
  have hpre : uda_pre_common env (uda_init s a) file a data { flags := 0, func := uda_query_ns }
      = some (uda_init s a, data, uda_check_args data) := by
    rw [uda_pre_common_eq]
    have hg : uda_pre_common_gate (uda_init s a) a data { flags := 0, func := uda_query_ns } = none := by
      unfold uda_pre_common_gate
      rw [hnsv]
      rfl
    rw [hg]
    unfold uda_pre_common_mapping uda_map_objs
    simp [hcnt, hobj0, uda_map_objs_loop]
  have hpost : uda_post_common (uda_init s a) a data { flags := 0, func := uda_query_ns }
      = some (uda_init s a, data) := by
    unfold uda_post_common uda_unmap_objs
    simp [hcnt, hobj0, uda_unmap_objs_loop]
  refine ⟨by rw [hinit]; simp, by rw [hnsv]; rfl, hdesc, ?_, ?_⟩
  · intro hargs
    rw [hres]
    unfold uda_ioctl_in_ns uda_ioctl_with_desc
    rw [if_neg hrange, hnsv]
    simp only [ns_mgr, hdesc, if_neg h6, hdata, hpre, hargs, hpost]
    simp [uda_query_ns]
  · intro hargs
    rw [hres]
    unfold uda_ioctl_in_ns uda_ioctl_with_desc
    rw [if_neg hrange, hnsv]
    have hv : uda_check_args data = -EINVAL := by
      unfold uda_check_args at hargs ⊢
      split
      · rfl
      · rename_i h; simp [h] at hargs
    simp only [ns_mgr, hdesc, if_neg h6, hdata, hpre, hv]
    simp

/-- The query of the name space manager when the local `hdr` of `uda_ioctl`
fails `uda_check_query`: `ns_mgr_get_desc` returns NULL, the test `IS_ERR`
lets NULL pass, and once the request is copied `uda_pre_common` reads
`desc->flags` through it, so the call has no defined result. -/
theorem uda_ioctl_query_failed (env : uda_env) (s : uda_state) (a file : Nat) (cmd : ioc_cmd)
    (user : uda_user) (hdr data : uda_ioctl)
    (hempty : s.max_ns = 0) (hmgr : s.ns_mem a = ns_mgr)
    (hraw : cmd.nr &&& UDA_RAW_OP = 0) (hnr : cmd.nr = UDA_UBER_OP) (hsize : SIZEOF_HDR ≤ cmd.size)
    (hhdr : user.hdr = some hdr) (hid : hdr.ns_id = 0)
    (hop : hdr.op = UDA_NS_MGR_BASE + UDA_NS_MGR_QUERY) (hchk : uda_check_query hdr ≠ 0)
    (hkm : hdr.length ≤ SIZEOF_STACK_DATA ∨ user.kmalloc = true)
    (hdata : user.data = some data) :
    ns_mgr_get_desc hdr = .null ∧
    uda_ioctl_entry env (uda_init s a) file cmd user = none := by
  have hinit : uda_init s a
      = { s with ns_array := upd s.ns_array 0 (some a), ns_mem := upd s.ns_mem a ns_mgr, max_ns := 1 } := by
    unfold uda_init uda_add_ns
    simp [hempty, uda_add_ns_loop, hmgr, ns_mgr]
  have hdesc : ns_mgr_get_desc hdr = .null := by
    unfold ns_mgr_get_desc
    simp only [hop, ns_mgr_check_ops, ns_mgr_ops]
    simp [hchk]
  have hres : uda_ioctl_entry env (uda_init s a) file cmd user
      = uda_ioctl_in_ns env (uda_init s a) file user hdr a := by
    apply uda_ioctl_entry_resolved env _ file cmd user hdr a hraw hnr hsize hhdr
    · rw [hid]; exact Nat.zero_le _
    · rw [hid]; decide
    · rw [hid, hinit]; simp
  have hnsv : (uda_init s a).ns_mem a = ns_mgr := by rw [hinit]; simp
  have hrange : ¬ (hdr.op < ((uda_init s a).ns_mem a).ioctl_base ∨
      hdr.op ≥ (((uda_init s a).ns_mem a).ioctl_base
        + to_u64 ((uda_init s a).ns_mem a).num_ioctls) % 2 ^ 64) := by
    rw [hnsv, hop]
    decide
  have h6 : ¬ (hdr.length > SIZEOF_STACK_DATA ∧ user.kmalloc = false) := by
    rcases hkm with h | h
    · omega
    · simp [h]
  refine ⟨hdesc, ?_⟩
  rw [hres]
  unfold uda_ioctl_in_ns uda_ioctl_with_desc
  rw [if_neg hrange, hnsv]
  simp only [ns_mgr, hdesc, if_neg h6, hdata]

/-- The check of the query fails whatever the request says when the word
behind the local `hdr` is zero: its attribute tag is not `UDA_IOVEC`. -/
theorem uda_check_query_zero_stack (flags offset : Nat) :
    uda_check_query { ex_req_query flags offset with u := fun _ => 0 } = -EINVAL := by
  have h : uda_check_arg { ex_req_query flags offset with u := fun _ => 0 } 0 UDA_IOVEC
      SIZEOF_UDA_IOVEC = -EINVAL := by
    simp [uda_check_arg, u_arg]
  unfold uda_check_query
  rw [h]
  split
  · rfl
  · rfl

/-- C17: after `uda_init` on the empty registry the name space manager is in
slot 0 with id 0, but a query does not return -ENOSYS whatever it holds.
`uda_ioctl` copies only the 16 header bytes into the local `hdr` and hands
that to `ns_mgr_get_desc`, so `uda_check_query` reads `u.arg[0]` from the
stack memory behind `hdr` and not from the request.  With a zero word there,
every query request (any flags, any argument offset, also the well-formed one)
fails the check, `ns_mgr_get_desc` returns NULL, `IS_ERR` does not catch it
and `uda_pre_common` reads `desc->flags` through NULL: the call has no defined
result.  With the word of a 16-byte `UDA_IOVEC` argument there, a request
whose own argument is all zero passes the check and reaches the handler. -/
theorem uda_ioctl_query_null_descriptor :
    ((uda_init ex_boot 500).ns_array 0, ((uda_init ex_boot 500).ns_mem 500).id) = (some 500, 0) ∧
    (∀ flags offset : Nat,
      uda_check_query { ex_req_query flags offset with u := fun _ => 0 } = -EINVAL ∧
      ns_mgr_get_desc { ex_req_query flags offset with u := fun _ => 0 } = .null ∧
      uda_ioctl_entry ex_env (uda_init ex_boot 500) 7 ex_cmd
        (ex_user_stack (ex_req_query flags offset) (fun _ => 0)) = none) ∧
    (uda_ioctl_entry ex_env (uda_init ex_boot 500) 7 ex_cmd
        (ex_user_stack { ex_req_query 0 24 with u := fun _ => 0 } (ex_req_query 0 24).u)).map
      (fun r => (r.ret, r.called)) = some (-ENOSYS, true) := by
  refine ⟨by rfl, ?_, by rfl⟩
  intro flags offset
  have hchk : uda_check_query { ex_req_query flags offset with u := fun _ => 0 } ≠ 0 := by
    rw [uda_check_query_zero_stack]; decide
  obtain ⟨h1, h2⟩ := uda_ioctl_query_failed ex_env ex_boot 500 7 ex_cmd
    (ex_user_stack (ex_req_query flags offset) (fun _ => 0))
    { ex_req_query flags offset with u := fun _ => 0 } (ex_req_query flags offset)
    rfl rfl (by decide) rfl (by decide) rfl rfl rfl hchk (Or.inl (by simp [ex_req_query, SIZEOF_STACK_DATA])) rfl
  exact ⟨uda_check_query_zero_stack flags offset, h1, h2⟩

/-! ## C18: use counts and the exclusive flag in reachable states -/

theorem obj_put_not_excl (o : uda_obj) : (obj_put o).flags &&& UDA_EXCL = 0 := by
  unfold obj_put
  split
  · rename_i h
    simp only
    rw [and_UDA_EXCL, Nat.testBit_and, testBit_NOT_UDA_EXCL]
    simp
  · rename_i h
    simpa using h

/-- An exclusive flag goes with use count 1 over every table operation,
whatever references are outstanding. -/
theorem table_excl_step (c c1 : uda_state × List Nat) (hinv : table_excl c.1)
    (hs : table_step c c1) : table_excl c1.1 := by
  cases hs with
  | acquire s s1 held file ns id excl p h =>
    obtain ⟨-, -, o, ho, -, -, hfl, huse, hs1⟩ := uda_get_obj_ok s s1 file ns id excl p h
    intro q oq hq hx
    simp only [hs1] at hq
    by_cases hqp : q = p
    · subst hqp
      simp only [upd_same, Option.some.injEq] at hq
      rw [← hq] at hx ⊢
      cases excl
      · simp only [obj_get, Bool.false_eq_true, if_false] at hx
        exact absurd hfl hx
      · simp [obj_get, huse rfl]
    · simp only [upd_noteq hqp] at hq
      exact hinv q oq hq hx
  | release s s1 held p hp h =>
    rw [uda_put_obj_eq] at h
    cases ho : s.obj_mem p with
    | none => rw [ho] at h; simp at h
    | some o =>
      rw [ho] at h
      simp only [Option.map_some', Option.some.injEq] at h
      intro q oq hq hx
      simp only [← h] at hq
      by_cases hqp : q = p
      · subst hqp
        simp only [upd_same, Option.some.injEq] at hq
        rw [← hq] at hx
        exact absurd (obj_put_not_excl o) hx
      · simp only [upd_noteq hqp] at hq
        exact hinv q oq hq hx
  | create env s s1 held file ns ioctl io1 p hk hfree h =>
    obtain ⟨-, -, p1, hk1, hs1, -⟩ := uda_pre_open_ok env s file ns ioctl s1 io1 h
    rw [hk] at hk1
    cases hk1
    intro q oq hq hx
    simp only [hs1, pre_open_state] at hq
    by_cases hqp : q = p
    · subst hqp
      simp only [upd_same, Option.some.injEq] at hq
      rw [← hq]
      rfl
    · simp only [upd_noteq hqp] at hq
      exact hinv q oq hq hx
  | destroy s s1 held ns ioctl io1 hp h =>
    unfold uda_post_close at h
    cases ho : s.obj_mem (u_obj ioctl 0) with
    | none => simp [ho] at h
    | some o =>
      simp only [ho, Option.some.injEq, Prod.mk.injEq] at h
      intro q oq hq hx
      simp only [← h.1] at hq
      by_cases hqp : q = u_obj ioctl 0
      · rw [hqp] at hq
        simp at hq
      · simp only [upd_noteq hqp] at hq
        exact hinv q oq hq hx

/-- In every reachable configuration, also after an object was destroyed
while other requests held it, an object whose exclusive flag is set has use
count 1: `uda_get_obj` sets the flag only when it takes the count from 0 to 1,
and it refuses a flagged object; `uda_put_obj` clears the flag. -/
theorem table_excl_reach (c : uda_state × List Nat) (h : table_reach c) : table_excl c.1 := by
  induction h with
  | init s h =>
    intro p o ho
    simp only [h p] at ho
    cases ho
  | step c c1 _ hs ih => exact table_excl_step c c1 ih hs

/-- The use counts stay the numbers of outstanding references over one table
operation that starts without a reference to freed memory. -/
theorem table_inv_step (c c1 : uda_state × List Nat) (hinv : table_inv c) (hlive : table_live c)
    (hs : table_step c c1) : table_inv c1 := by
  cases hs with
  | acquire s s1 held file ns id excl p h =>
    obtain ⟨-, -, o, ho, -, -, hfl, huse, hs1⟩ := uda_get_obj_ok s s1 file ns id excl p h
    intro q oq hq
    simp only [hs1] at hq
    by_cases hqp : q = p
    · subst hqp
      simp only [upd_same, Option.some.injEq] at hq
      obtain ⟨hcnt, -⟩ := hinv q o ho
      simp only at hcnt
      rw [← hq]
      constructor
      · cases excl <;> simp [obj_get, hcnt, List.count_cons_self]
      · intro _
        cases excl
        · simp only [obj_get, Bool.false_eq_true, if_false] at *
          rename_i hx
          exact absurd hfl hx
        · simp [obj_get, huse rfl]
    · simp only [upd_noteq hqp] at hq
      obtain ⟨hcnt, hex⟩ := hinv q oq hq
      refine ⟨?_, hex⟩
      simp only at hcnt ⊢
      rw [hcnt, List.count_cons_of_ne hqp]
  | release s s1 held p hp h =>
    rw [uda_put_obj_eq] at h
    cases ho : s.obj_mem p with
    | none => rw [ho] at h; simp at h
    | some o =>
      rw [ho] at h
      simp only [Option.map_some', Option.some.injEq] at h
      intro q oq hq
      simp only [← h] at hq
      by_cases hqp : q = p
      · subst hqp
        simp only [upd_same, Option.some.injEq] at hq
        obtain ⟨hcnt, -⟩ := hinv q o ho
        simp only at hcnt
        rw [← hq]
        constructor
        · rw [(obj_put_fields o).2.2.2.2.2, hcnt]
          simp only
          rw [List.count_erase_self]
          have : 0 < held.count q := List.count_pos_iff.mpr hp
          omega
        · intro hx
          exact absurd (obj_put_not_excl o) hx
      · simp only [upd_noteq hqp] at hq
        obtain ⟨hcnt, hex⟩ := hinv q oq hq
        refine ⟨?_, hex⟩
        simp only at hcnt ⊢
        rw [hcnt, List.count_erase_of_ne hqp]
  | create env s s1 held file ns ioctl io1 p hk hfree h =>
    have hnew : p ∉ held := fun hm => hlive p hm hfree
    obtain ⟨-, -, p1, hk1, hs1, -⟩ := uda_pre_open_ok env s file ns ioctl s1 io1 h
    rw [hk] at hk1
    cases hk1
    intro q oq hq
    simp only [hs1, pre_open_state] at hq
    by_cases hqp : q = p
    · subst hqp
      simp only [upd_same, Option.some.injEq] at hq
      rw [← hq]
      constructor
      · simp [pre_open_obj, List.count_eq_zero_of_not_mem hnew]
      · intro _; rfl
    · simp only [upd_noteq hqp] at hq
      obtain ⟨hcnt, hex⟩ := hinv q oq hq
      refine ⟨?_, hex⟩
      simp only at hcnt ⊢
      rw [hcnt, List.count_cons_of_ne hqp]
  | destroy s s1 held ns ioctl io1 hp h =>
    unfold uda_post_close at h
    cases ho : s.obj_mem (u_obj ioctl 0) with
    | none => simp [ho] at h
    | some o =>
      simp only [ho, Option.some.injEq, Prod.mk.injEq] at h
      intro q oq hq
      simp only [← h.1] at hq
      by_cases hqp : q = u_obj ioctl 0
      · rw [hqp] at hq
        simp at hq
      · simp only [upd_noteq hqp] at hq
        obtain ⟨hcnt, hex⟩ := hinv q oq hq
        refine ⟨?_, hex⟩
        simp only at hcnt ⊢
        rw [hcnt, List.count_erase_of_ne hqp]

theorem table_reach_live_live (c : uda_state × List Nat) (h : table_reach_live c) :
    table_live c := by
  cases h with
  | init s h =>
    intro p hp
    simp at hp
  | step c0 c1 _ _ hl => exact hl

theorem table_reach_live_reach (c : uda_state × List Nat) (h : table_reach_live c) :
    table_reach c := by
  induction h with
  | init s h => exact table_reach.init s h
  | step c c1 _ hs _ ih => exact table_reach.step c c1 ih hs

theorem table_inv_reach_live (c : uda_state × List Nat) (h : table_reach_live c) :
    table_inv c := by
  induction h with
  | init s h =>
    intro p o ho
    simp only [h p] at ho
    cases ho
  | step c c1 hc hs _ ih => exact table_inv_step c c1 ih (table_reach_live_live c hc) hs

/-- The use counts as long as no request keeps a reference to a destroyed
object (use counts taken as unbounded integers; `atomic_t` agrees with them
below 2^31 references).  In every configuration reachable from the empty
table by acquire (`uda_get_obj`), release of an outstanding reference
(`uda_put_obj`), create (`uda_pre_open`) and destroy (`uda_post_close`)
through configurations without a reference to freed memory, every allocated
object has a use count that is not negative, namely the number of outstanding
references to it, and every object whose exclusive flag is set has use count
exactly 1 and exactly one outstanding reference. -/
theorem uda_use_count_live (s : uda_state) (held : List Nat) (hreach : table_reach_live (s, held))
    (p : Nat) (o : uda_obj) (ho : s.obj_mem p = some o) :
    0 ≤ o.use_cnt ∧ o.use_cnt = (held.count p : Int) ∧
    (o.flags &&& UDA_EXCL ≠ 0 → o.use_cnt = 1 ∧ held.count p = 1) := by
  obtain ⟨hcnt, hex⟩ := table_inv_reach_live (s, held) hreach p o ho
  simp only at hcnt hex
  refine ⟨by rw [hcnt]; exact Int.natCast_nonneg _, hcnt, fun hx => ⟨hex hx, ?_⟩⟩
  have := hex hx
  rw [hcnt] at this
  exact_mod_cast this

/-- The object that session 7 creates in the empty system, as an instance of
`uda_use_count_live`. -/
theorem uda_use_count_live_created :
    0 ≤ (pre_open_obj ex_env ex_empty 7 1000 (ex_req_create 5) 200).use_cnt ∧
    (pre_open_obj ex_env ex_empty 7 1000 (ex_req_create 5) 200).use_cnt
      = (([200] : List Nat).count 200 : Int) ∧
    ((pre_open_obj ex_env ex_empty 7 1000 (ex_req_create 5) 200).flags &&& UDA_EXCL ≠ 0 →
      (pre_open_obj ex_env ex_empty 7 1000 (ex_req_create 5) 200).use_cnt = 1 ∧
      ([200] : List Nat).count 200 = 1) :=
  uda_use_count_live ex_created [200]
    (table_reach_live.step (ex_empty, []) (ex_created, [200])
      (table_reach_live.init ex_empty (fun _ => rfl))
      (table_step.create ex_env ex_empty ex_created [] 7 1000 (ex_req_create 5)
        (uda_pre_open ex_env ex_empty 7 1000 (ex_req_create 5)).2.1 200 rfl rfl rfl)
      (by intro p hp; simp at hp; subst hp; exact fun h => nomatch h))
    200 (pre_open_obj ex_env ex_empty 7 1000 (ex_req_create 5) 200) rfl

/-- The run that destroys an object in use, as a chain of table operations:
create, release by the creator, two shared acquires (requests A and B),
destroy by B, and a second create at the freed address (request C). -/
theorem ex_recreated_reach : table_reach (ex_recreated, [200, 200]) := by
  have h1 : table_reach (ex_created, [200]) :=
    table_reach.step (ex_empty, []) _ (table_reach.init ex_empty (fun _ => rfl))
      (table_step.create ex_env ex_empty ex_created [] 7 1000 (ex_req_create 5)
        (uda_pre_open ex_env ex_empty 7 1000 (ex_req_create 5)).2.1 200 rfl rfl rfl)
  have h2 : table_reach (ex_put_200 ex_created, []) :=
    table_reach.step _ _ h1
      (table_step.release ex_created (ex_put_200 ex_created) [200] 200 (by simp) rfl)
  have h3 : table_reach (ex_get_shared (ex_put_200 ex_created), [200]) :=
    table_reach.step _ _ h2
      (table_step.acquire (ex_put_200 ex_created) _ [] 7 1000 ⟨0, 9, 0⟩ false 200 rfl)
  have h4 : table_reach (ex_get_shared (ex_get_shared (ex_put_200 ex_created)), [200, 200]) :=
    table_reach.step _ _ h3
      (table_step.acquire (ex_get_shared (ex_put_200 ex_created)) _ [200] 7 1000 ⟨0, 9, 0⟩ false
        200 rfl)
  have h5 : table_reach (ex_destroyed_in_use, [200]) :=
    table_reach.step _ _ h4
      (table_step.destroy (ex_get_shared (ex_get_shared (ex_put_200 ex_created)))
        ex_destroyed_in_use [200, 200] 1000 ex_mapped_200 (set_u_obj ex_mapped_200 0 0)
        (by decide) rfl)
  exact table_reach.step _ _ h5
    (table_step.create ex_env ex_destroyed_in_use ex_recreated [200] 7 1000 (ex_req_create 6)
      (uda_pre_open ex_env ex_destroyed_in_use 7 1000 (ex_req_create 6)).2.1 200 rfl rfl rfl)

/-- C18: a run of the four table operations that ends with a negative use
count.  Session 7 creates an object (address 200) and releases it; the
requests A and B acquire it shared (use count 2); B destroys it with
`uda_post_close`, which tests neither the use count nor the flag, while A
still holds its reference; request C creates an object and `kzalloc` hands
out the freed address: the new object is exclusive with use count 1 and two
outstanding references (C and A).  When A releases its reference the
exclusive flag of the object of C is cleared and its use count is 0, so an
exclusive acquire succeeds beside the reference of C; after the release by C
the use count is -1. -/
theorem uda_use_count_destroy_in_use :
    ((ex_get_shared (ex_get_shared (ex_put_200 ex_created))).obj_mem 200).map
      (fun o => (o.flags &&& UDA_EXCL, o.use_cnt)) = some (0, 2) ∧
    ex_destroyed_in_use.obj_mem 200 = none ∧
    table_reach (ex_recreated, [200, 200]) ∧
    (ex_recreated.obj_mem 200).map (fun o => (o.flags &&& UDA_EXCL, o.use_cnt))
      = some (UDA_EXCL, 1) ∧
    table_reach (ex_put_200 ex_recreated, [200]) ∧
    ((ex_put_200 ex_recreated).obj_mem 200).map (fun o => (o.flags &&& UDA_EXCL, o.use_cnt))
      = some (0, 0) ∧
    (uda_get_obj (ex_put_200 ex_recreated) 7 1000 ⟨0, 9, 0⟩ true).map (fun r => r.2)
      = some (.ok 200) ∧
    table_reach (ex_dangling_put, []) ∧
    (ex_dangling_put.obj_mem 200).map (fun o => o.use_cnt) = some (-1) := by
  have h7 : table_reach (ex_put_200 ex_recreated, [200]) :=
    table_reach.step _ _ ex_recreated_reach
      (table_step.release ex_recreated (ex_put_200 ex_recreated) [200, 200] 200 (by simp) rfl)
  have h8 : table_reach (ex_dangling_put, []) :=
    table_reach.step _ _ h7
      (table_step.release (ex_put_200 ex_recreated) ex_dangling_put [200] 200 (by simp) rfl)
  exact ⟨by rfl, by rfl, ex_recreated_reach, by rfl, h7, by rfl, by rfl, h8, by rfl⟩

/-! ## C19: the read of the session context in `uda_pre_open` -/

/-- C19 (the code departs from the claim): the session-context argument of the
request has offset 4000 and length 8 while the declared length is 24, so
offset + 8 is far greater than the length; `uda_pre_common` returns 0 all the
same, the object is created and entered into the idr, and its `ucontext` is
the word that lies at byte 4000 behind the request buffer: another content
of that memory gives another `ucontext`.  `uda_check_args` runs after
`uda_pre_open` has raised `obj_cnt` and lowered `arg_cnt`, so it does not
look at this argument at all. -/
theorem uda_pre_open_reads_behind_buffer :
    ((u_arg (ex_req_far 57005) 0).offset + (u_arg (ex_req_far 57005) 0).length
      > (ex_req_far 57005).length) ∧
    (uda_pre_common ex_env ex_state 7 1000 (ex_req_far 57005) (ex_desc 129)).map
      (fun r => (r.2.2, (r.1.obj_mem 200).map (fun o => (o.ucontext, o.obj_type)),
        idr_find (r.1.ns_mem 1000).idr 2)) = some (0, some (57005, 9), some 200) ∧
    (uda_pre_common ex_env ex_state 7 1000 (ex_req_far 48879) (ex_desc 129)).map
      (fun r => (r.2.2, (r.1.obj_mem 200).map (fun o => (o.ucontext, o.obj_type)),
        idr_find (r.1.ns_mem 1000).idr 2)) = some (0, some (48879, 9), some 200) ∧
    (uda_ioctl_entry ex_env ex_state 7 ex_cmd (ex_user (ex_req_far 57005))).map
      (fun r => (r.ret, r.called, (r.s.obj_mem 200).map (fun o => o.ucontext)))
      = some (0, true, some 57005) := by
  refine ⟨by decide, by rfl, by rfl, by rfl⟩


/-! ## C20: a creating request with 255 object slots -/

set_option maxRecDepth 1000000 in
/-- C20 (the code departs from the claim): the request declares 255 object
slots (all naming object 0) and passes `uda_pre_common` with return value 0;
`obj_cnt` is a `u8`, so `ioctl->obj_cnt++` in `uda_pre_open` takes it from
255 to 0, not to 256.  `uda_post_common` then unmaps nothing: object 0 keeps
the use count 255 instead of getting back to 0, and the new object stays
exclusive with use count 1. -/
theorem uda_pre_open_obj_cnt_wraps :
    (ex_state.obj_mem 100).map (fun o => o.use_cnt) = some 0 ∧
    (uda_pre_common ex_env ex_state 7 1000 ex_req_255 (ex_desc 129)).map
      (fun r => (r.2.2, r.2.1.obj_cnt, r.2.1.arg_cnt,
        (r.1.obj_mem 100).map (fun o => (o.use_cnt, o.flags)),
        (r.1.obj_mem 200).map (fun o => (o.use_cnt, o.flags))))
      = some (0, 0, 0, some (255, 0), some (1, UDA_EXCL)) ∧
    ((uda_pre_common ex_env ex_state 7 1000 ex_req_255 (ex_desc 129)).bind
      (fun r => uda_post_common r.1 1000 r.2.1 (ex_desc 129))).map
      (fun r => ((r.1.obj_mem 100).map (fun o => (o.use_cnt, o.flags)),
        (r.1.obj_mem 200).map (fun o => (o.use_cnt, o.flags))))
      = some (some (255, 0), some (1, UDA_EXCL)) := by
  refine ⟨by rfl, by rfl, by rfl⟩

end Urdma
